import Mathlib

/-!
# Shared-memory byte transport component (`opal/mca/btl/sm/btl_sm_component.c`)

A shallow embedding of the component's initialisation path (single-copy
mechanism selection, `mca_btl_sm_component_init`) and of its progress engine
(`mca_btl_sm_poll_handle_frag`, `mca_btl_sm_poll_fifo`,
`mca_btl_sm_progress_waiting`, `mca_btl_sm_progress_endpoints`,
`mca_btl_sm_component_progress`), followed by theorems about them.

The C globals `mca_btl_sm_component` and `mca_btl_sm` become one explicit
`State` record that every function takes and returns.  Calls into code that
lives in other files (backend initialisation, the FIFO primitives, the
registered receive callbacks, the help-message printer) are either taken from
an environment record or recorded, in program order, in `State.trace`.
-/

namespace BtlSm

/-! ## Build configuration and constants from headers -/

/-- Compile-time configuration: the feature macros tested by `#if` in the
component, and the header constants the component uses by name only. -/
structure Build where
  /-- Feature macro `OPAL_BTL_SM_HAVE_XPMEM`. -/
  have_xpmem : Bool
  /-- Feature macro `OPAL_BTL_SM_HAVE_CMA`. -/
  have_cma : Bool
  /-- Feature macro `OPAL_BTL_SM_HAVE_KNEM`. -/
  have_knem : Bool
  /-- Whether `PR_SET_PTRACER` is defined. -/
  have_pr_set_ptracer : Bool
  /-- Constant `MCA_BTL_FLAGS_RDMA` (a bit mask inside the 32-bit `btl_flags`). -/
  MCA_BTL_FLAGS_RDMA : Nat
  /-- Constant `MCA_BTL_SM_FLAG_COMPLETE` (header flag). -/
  MCA_BTL_SM_FLAG_COMPLETE : Nat
  /-- Constant `MCA_BTL_SM_FLAG_SINGLE_COPY` (header flag). -/
  MCA_BTL_SM_FLAG_SINGLE_COPY : Nat
  /-- Constant `MCA_BTL_SM_FLAG_SETUP_FBOX` (header flag). -/
  MCA_BTL_SM_FLAG_SETUP_FBOX : Nat
  /-- Constant `MCA_BTL_SM_OFFSET_BITS`. -/
  MCA_BTL_SM_OFFSET_BITS : Nat
  /-- Constant `MCA_BTL_SM_FBOX_ALIGNMENT_MASK`. -/
  MCA_BTL_SM_FBOX_ALIGNMENT_MASK : Nat
  /-- Width in bits of the `segment_size` field of the component record. -/
  segment_size_bits : Nat
  /-- Width in bits of `unsigned long`. -/
  ulong_bits : Nat
  /-- Constant `MCA_BTL_SM_BITNESS`. -/
  MCA_BTL_SM_BITNESS : Nat

/-- Return code `OPAL_SUCCESS`. -/
def OPAL_SUCCESS : Int := 0

/-- Single-copy mechanism identifiers `MCA_BTL_SM_XPMEM`, `MCA_BTL_SM_CMA`,
`MCA_BTL_SM_KNEM`, `MCA_BTL_SM_EMUL`, `MCA_BTL_SM_NONE`. -/
inductive Mechanism where
  | XPMEM
  | CMA
  | KNEM
  | EMUL
  | NONE
  deriving DecidableEq, Repr

/-- The table `single_copy_mechanisms[]`, in order of preference, up to and
including the `none` entry (the `NULL`-string terminator is never reached by
the loops over the table, which stop at `none`). -/
def single_copy_mechanisms (B : Build) : List Mechanism :=
  (if B.have_xpmem then [Mechanism.XPMEM] else []) ++
  (if B.have_cma then [Mechanism.CMA] else []) ++
  (if B.have_knem then [Mechanism.KNEM] else []) ++
  [Mechanism.EMUL, Mechanism.NONE]

/-- Values of the function pointers stored in the module record
(`btl_get`, `btl_put`, `btl_atomic_op`, `btl_atomic_fop`, `btl_atomic_cswap`). -/
inductive EntryPoint where
  | null
  | get_sc_emu
  | put_sc_emu
  | get_cma
  | put_cma
  | emu_aop
  | emu_afop
  | emu_acswap
  /-- An entry point installed by a backend whose source is in another file. -/
  | backend (id : Nat)
  deriving DecidableEq, Repr

/-- The fields of `mca_btl_sm.super` that the component file writes after
registration. -/
structure mca_btl_base_module_t where
  btl_flags : Nat
  btl_atomic_flags : Nat
  btl_get : EntryPoint
  btl_put : EntryPoint
  btl_atomic_op : EntryPoint
  btl_atomic_fop : EntryPoint
  btl_atomic_cswap : EntryPoint
  deriving DecidableEq, Repr

/-! ## Message headers, fragments, endpoints -/

/-- Endpoints are referred to by their index in the component's endpoint table. -/
abbrev EpId := Nat

/-- Message header `mca_btl_sm_hdr_t`: the fields read or written by the
component file. -/
structure Hdr where
  flags : Nat
  tag : Nat
  len : Nat
  /-- Owning fragment (`hdr->frag`). -/
  frag : Nat
  /-- Single-copy descriptor base (`hdr->sc_iov.iov_base`). -/
  sc_iov_base : Nat
  /-- Single-copy descriptor length (`hdr->sc_iov.iov_len`). -/
  sc_iov_len : Nat
  /-- Relative fast-box base (`hdr->fbox_base`). -/
  fbox_base : Nat
  deriving DecidableEq, Repr

/-- Fragment `mca_btl_sm_frag_t`: only its header pointer is used here. -/
structure mca_btl_sm_frag_t where
  hdr : Hdr
  deriving DecidableEq, Repr

/-- Address stored in `seg_addr.pval` of a segment. -/
inductive SegAddr where
  /-- Zero-initialised (`NULL`). -/
  | null
  /-- The bytes following a header, `(void *) (hdr + 1)`. -/
  | after_hdr (h : Hdr)
  /-- A local address produced by the registration lookup. -/
  | mapped (addr : Nat)
  deriving DecidableEq, Repr

/-- Segment `mca_btl_base_segment_t`. -/
structure mca_btl_base_segment_t where
  seg_addr : SegAddr
  seg_len : Nat
  deriving DecidableEq, Repr

/-- Receive descriptor `mca_btl_base_receive_descriptor_t`; `des_segments` is
the two-element local array `segments`. -/
structure mca_btl_base_receive_descriptor_t where
  endpoint : EpId
  des_segments : List mca_btl_base_segment_t
  des_segment_count : Nat
  tag : Nat
  cbdata : Nat
  deriving DecidableEq, Repr

/-- One entry of `mca_btl_base_active_message_trigger`. -/
structure mca_btl_active_message_callback_t where
  cbfunc : Nat
  cbdata : Nat
  deriving DecidableEq, Repr

/-- Calls that leave the component file, in the order they are made. -/
inductive Event where
  /-- A call of `opal_show_help` with the given topic. -/
  | show_help (topic : String)
  /-- A call of `mca_btl_sm_sc_emu_init`. -/
  | sc_emu_init
  /-- A call of `opal_pmix_register_cleanup` for the backing file. -/
  | register_cleanup
  /-- A call of `sm_fifo_init` on the attached segment. -/
  | sm_fifo_init
  /-- A call of `opal_shmem_unlink`. -/
  | shmem_unlink
  /-- A call of `munmap` on the component segment. -/
  | munmap
  /-- A call of `free (btls)`. -/
  | free_btls
  /-- A call of `mca_btl_sm_frag_complete (hdr->frag)`. -/
  | frag_complete (frag : Nat)
  /-- A call `reg->cbfunc (&mca_btl_sm.super, &frag)`. -/
  | cbfunc (cb : Nat) (desc : mca_btl_base_receive_descriptor_t)
  /-- A call of `sm_return_registration`. -/
  | return_registration (reg : Nat) (ep : EpId)
  /-- A call of `mca_btl_sm_endpoint_setup_fbox_recv`. -/
  | setup_fbox_recv (ep : EpId) (fbox_base : Nat)
  /-- A call of `sm_fifo_write_back` with the header as it is at the call. -/
  | fifo_write_back (hdr : Hdr) (ep : EpId)
  /-- A call of `sm_fifo_write_ep` that returned true. -/
  | fifo_write_ep (hdr : Hdr) (ep : EpId)
  /-- A call of `opal_atomic_mb`. -/
  | mb
  /-- A call of `sm_fifo_read` on the local FIFO, and whether it returned a
  header (`true`) or `NULL` (`false`). -/
  | fifo_read (found : Bool)
  deriving DecidableEq, Repr

/-- Value of the pointer `my_segment`. -/
inductive SegPtr where
  | null
  /-- The value `(void *) -1` returned by a failed `mmap`. -/
  | map_failed
  | addr (a : Nat)
  deriving DecidableEq, Repr

/-- Endpoint `mca_btl_base_endpoint_t`: the fields used by the component file,
and the number of `sm_fifo_write_ep` calls made on it so far. -/
structure Endpoint where
  pending_frags : List mca_btl_sm_frag_t
  waiting : Bool
  fifo_write_attempts : Nat
  deriving DecidableEq, Repr

/-- The globals `mca_btl_sm_component` and `mca_btl_sm`, the static `lock` of
`mca_btl_sm_component_progress`, and the trace of outgoing calls. -/
structure State where
  single_copy_mechanism : Mechanism
  log_attach_align : Int
  segment_size : Nat
  fbox_size : Nat
  fbox_max : Nat
  /-- Number of entries of `fbox_in_endpoints` in use; the array index leaves
  the array long before this unsigned counter could wrap. -/
  num_fbox_in_endpoints : Nat
  /-- The array `fbox_in_endpoints`, as a map from index to stored endpoint. -/
  fbox_in_endpoints : Nat → Option EpId
  my_segment : SegPtr
  /-- The local FIFO `my_fifo`: headers queued for this process, oldest first,
  each with the endpoint that `sm_fifo_read` reports for it; the head is
  `SM_FIFO_FREE` exactly when the list is empty. -/
  my_fifo : List (Hdr × EpId)
  pending_endpoints : List EpId
  endpoints : EpId → Endpoint
  /-- The module record `mca_btl_sm.super`. -/
  super : mca_btl_base_module_t
  btl_inited : Bool
  lock : Int
  trace : List Event

/-! ## Single-copy mechanism selection -/

/-- The loop of `mca_btl_sm_select_next_single_copy_mechanism` over the rest
of the table: stop at `none`; at the entry equal to the current mechanism
return the following entry. -/
def select_next_loop : List Mechanism → Mechanism → Mechanism
  | [], cur => cur
  | v :: rest, cur =>
    if v = Mechanism.NONE then cur
    else if v = cur then rest.headD cur
    else select_next_loop rest cur

/-- Function `mca_btl_sm_select_next_single_copy_mechanism`. -/
def mca_btl_sm_select_next_single_copy_mechanism (B : Build) (s : State) : State :=
  { s with single_copy_mechanism :=
      select_next_loop (single_copy_mechanisms B) s.single_copy_mechanism }

/-- Result of a backend initialisation routine defined in another file
(`mca_btl_sm_xpmem_init`, `mca_btl_sm_knem_init`): its return code and the
get/put entry points it stores in the module record, if it stores any. -/
structure BackendInit where
  rc : Int
  install : Option (EntryPoint × EntryPoint)
  deriving DecidableEq, Repr

/-- What the operating system and the backends answer during
`mca_btl_sm_check_single_copy`. -/
structure SingleCopyEnv where
  /-- Outcome of `mca_btl_sm_xpmem_init ()`. -/
  xpmem_init : BackendInit
  /-- Result of `open ("/proc/sys/kernel/yama/ptrace_scope", O_RDONLY)`. -/
  ptrace_scope_fd : Int
  /-- The byte that `read (fd, &buffer, 1)` stores, if it stores one. -/
  ptrace_scope_read : Option Char
  /-- Result of `prctl (PR_SET_PTRACER, PR_SET_PTRACER_ANY, 0, 0, 0)`. -/
  prctl_ret : Int
  /-- Outcome of `mca_btl_sm_knem_init ()`. -/
  knem_init : BackendInit
  deriving DecidableEq, Repr

/-- Apply the stores of a backend initialisation routine to the module record. -/
def apply_install (i : BackendInit) (s : State) : State :=
  match i.install with
  | none => s
  | some (g, p) => { s with super := { s.super with btl_get := g, btl_put := p } }

/-- Append one outgoing call to the trace. -/
def emit (e : Event) (s : State) : State :=
  { s with trace := s.trace ++ [e] }

/-- The `OPAL_BTL_SM_HAVE_XPMEM` block of `mca_btl_sm_check_single_copy`. -/
def check_xpmem (B : Build) (E : SingleCopyEnv) (initial_mechanism : Mechanism)
    (s : State) : State :=
  if B.have_xpmem && decide (Mechanism.XPMEM = s.single_copy_mechanism) then
    let s1 := apply_install E.xpmem_init s
    if OPAL_SUCCESS ≠ E.xpmem_init.rc then
      let s2 := if Mechanism.XPMEM = initial_mechanism
                then emit (Event.show_help "xpmem-make-failed") s1 else s1
      mca_btl_sm_select_next_single_copy_mechanism B s2
    else s1
  else s

/-- The value of `cma_happy` computed in the CMA block. -/
def cma_happy (B : Build) (E : SingleCopyEnv) : Bool :=
  let buffer : Char :=
    if 0 ≤ E.ptrace_scope_fd then E.ptrace_scope_read.getD '0' else '0'
  if '0' ≠ buffer then
    B.have_pr_set_ptracer && decide (0 = E.prctl_ret)
  else true

/-- The `OPAL_BTL_SM_HAVE_CMA` block of `mca_btl_sm_check_single_copy`. -/
def check_cma (B : Build) (E : SingleCopyEnv) (initial_mechanism : Mechanism)
    (s : State) : State :=
  if B.have_cma && decide (Mechanism.CMA = s.single_copy_mechanism) then
    if !cma_happy B E then
      let s1 := mca_btl_sm_select_next_single_copy_mechanism B s
      if Mechanism.CMA = initial_mechanism
      then emit (Event.show_help "cma-permission-denied") s1 else s1
    else
      { s with super := { s.super with btl_get := EntryPoint.get_cma,
                                       btl_put := EntryPoint.put_cma } }
  else s

/-- The `OPAL_BTL_SM_HAVE_KNEM` block of `mca_btl_sm_check_single_copy`. -/
def check_knem (B : Build) (E : SingleCopyEnv) (initial_mechanism : Mechanism)
    (s : State) : State :=
  if B.have_knem && decide (Mechanism.KNEM = s.single_copy_mechanism) then
    let s1 := apply_install E.knem_init s
    if OPAL_SUCCESS ≠ E.knem_init.rc then
      let s2 := if Mechanism.KNEM = initial_mechanism
                then emit (Event.show_help "knem requested but not available") s1 else s1
      mca_btl_sm_select_next_single_copy_mechanism B s2
    else s1
  else s

/-- The C expression `x & ~mask` on a 32-bit unsigned word. -/
def and_not32 (x mask : Nat) : Nat :=
  x &&& ((2 ^ 32 - 1) ^^^ (mask % 2 ^ 32))

/-- The final block of `mca_btl_sm_check_single_copy`, taken when the
mechanism is `MCA_BTL_SM_NONE`. -/
def check_none (B : Build) (s : State) : State :=
  if Mechanism.NONE = s.single_copy_mechanism then
    { s with super := { s.super with
        btl_flags := and_not32 s.super.btl_flags B.MCA_BTL_FLAGS_RDMA,
        btl_get := EntryPoint.null,
        btl_put := EntryPoint.null } }
  else s

/-- Function `mca_btl_sm_check_single_copy`. -/
def mca_btl_sm_check_single_copy (B : Build) (E : SingleCopyEnv) (s : State) : State :=
  let initial_mechanism := s.single_copy_mechanism
  let s0 := emit Event.sc_emu_init s
  let s1 := check_xpmem B E initial_mechanism s0
  let s2 := check_cma B E initial_mechanism s1
  let s3 := check_knem B E initial_mechanism s2
  check_none B s3

/-! ## Component initialisation -/

/-- What the runtime and the operating system answer during
`mca_btl_sm_component_init`. -/
structure InitEnv where
  /-- Value of `MCA_BTL_SM_NUM_LOCAL_PEERS`. -/
  num_local_peers : Nat
  /-- Whether `calloc` returns a non-null array. -/
  calloc_ok : Bool
  single_copy : SingleCopyEnv
  /-- Result of `opal_asprintf` for the backing file name. -/
  asprintf_rc : Int
  /-- Result of `opal_shmem_segment_create`. -/
  segment_create_rc : Int
  /-- Result of `opal_shmem_segment_attach` (`none` for `NULL`). -/
  segment_attach : Option Nat
  /-- Result of `mmap` (`none` for `(void *) -1`). -/
  mmap : Option Nat
  /-- Result of `mca_btl_base_sm_modex_send`. -/
  modex_send_rc : Int
  deriving DecidableEq, Repr

/-- The modules a returned `btls` array can point to. -/
inductive ModuleRef where
  /-- The address `&mca_btl_sm`. -/
  | mca_btl_sm
  deriving DecidableEq, Repr

/-- What `mca_btl_sm_component_init` hands back: the returned array (`none`
for `NULL`), the value stored in `*num_btls`, and the globals. -/
structure InitResult where
  btls : Option (List ModuleRef)
  num_btls : Int
  state : State

/-- The clamp of `log_attach_align` to the range 12 to 25. -/
def clamp_log_attach_align (a : Int) : Int :=
  if a < 12 then 12 else if a > 25 then 25 else a

/-- The two segment-size checks of `mca_btl_sm_component_init`:
raise to `2 << 20`, then compare against `1ul << MCA_BTL_SM_OFFSET_BITS` and
on excess store `2ul << MCA_BTL_SM_OFFSET_BITS`. -/
def sane_segment_size (B : Build) (segment_size : Nat) : Nat :=
  let s1 := if segment_size < 2 <<< 20 then 2 <<< 20 else segment_size
  if s1 > (1 <<< B.MCA_BTL_SM_OFFSET_BITS) % 2 ^ B.ulong_bits then
    ((2 <<< B.MCA_BTL_SM_OFFSET_BITS) % 2 ^ B.ulong_bits) % 2 ^ B.segment_size_bits
  else s1

/-- The rounding of `fbox_size` up to the fast-box alignment (32-bit unsigned). -/
def align_fbox_size (B : Build) (fbox_size : Nat) : Nat :=
  and_not32 ((fbox_size + B.MCA_BTL_SM_FBOX_ALIGNMENT_MASK) % 2 ^ 32)
    B.MCA_BTL_SM_FBOX_ALIGNMENT_MASK

/-- The code after the label `failed` in `mca_btl_sm_component_init`. -/
def component_init_failed (B : Build) (s : State) : InitResult :=
  let s1 := if B.have_xpmem && decide (Mechanism.XPMEM = s.single_copy_mechanism)
            then emit Event.munmap s else emit Event.shmem_unlink s
  { btls := none, num_btls := 0, state := emit Event.free_btls s1 }

/-- The tail of `mca_btl_sm_component_init` from `sm_fifo_init` on. -/
def component_init_finish (B : Build) (E : InitEnv) (s : State) : InitResult :=
  let s1 := emit Event.sm_fifo_init s
  if OPAL_SUCCESS ≠ E.modex_send_rc then component_init_failed B s1
  else
    { btls := some [ModuleRef.mca_btl_sm], num_btls := 1,
      state := { s1 with btl_inited := false } }

/-- Function `mca_btl_sm_component_init`. -/
def mca_btl_sm_component_init (B : Build) (E : InitEnv) (s : State) : InitResult :=
  if 0 = E.num_local_peers then { btls := none, num_btls := 0, state := s }
  else
    let s1 := if B.have_xpmem
              then { s with log_attach_align := clamp_log_attach_align s.log_attach_align }
              else s
    if !E.calloc_ok then { btls := none, num_btls := 0, state := s1 }
    else
      let s2 := { s1 with segment_size := sane_segment_size B s1.segment_size,
                          fbox_size := align_fbox_size B s1.fbox_size,
                          num_fbox_in_endpoints := 0 }
      let s3 := mca_btl_sm_check_single_copy B E.single_copy s2
      if Mechanism.XPMEM ≠ s3.single_copy_mechanism then
        if 0 > E.asprintf_rc then
          { btls := none, num_btls := 0, state := emit Event.free_btls s3 }
        else
          let s4 := emit Event.register_cleanup s3
          if OPAL_SUCCESS ≠ E.segment_create_rc then
            { btls := none, num_btls := 0, state := emit Event.free_btls s4 }
          else
            match E.segment_attach with
            | none => component_init_failed B { s4 with my_segment := SegPtr.null }
            | some a => component_init_finish B E { s4 with my_segment := SegPtr.addr a }
      else
        match E.mmap with
        | none =>
          { btls := none, num_btls := 0,
            state := emit Event.free_btls { s3 with my_segment := SegPtr.map_failed } }
        | some a => component_init_finish B E { s3 with my_segment := SegPtr.addr a }

/-! ## Progress engine -/

/-- What the rest of the transport answers during a progress pass. -/
structure ProgressEnv where
  /-- Result of `opal_using_threads ()`. -/
  opal_using_threads : Bool
  /-- The table `mca_btl_base_active_message_trigger`, indexed by tag. -/
  mca_btl_base_active_message_trigger : Nat → mca_btl_active_message_callback_t
  /-- Lookup `sm_get_registation (endpoint, base, len, 0, &pval)`: the
  registration it returns, which the source asserts to be non-null, and the
  local address it stores through its last argument. -/
  sm_get_registation : EpId → Nat → Nat → Nat × Nat
  /-- Result of `sm_fifo_write_ep (hdr, ep)`, given the endpoint, the number
  of earlier calls on that endpoint, and the header. -/
  sm_fifo_write_ep : EpId → Nat → Hdr → Bool
  /-- Function `mca_btl_sm_check_fboxes`: its return value and its effect. -/
  mca_btl_sm_check_fboxes : State → Int × State

/-- Function `mca_btl_sm_poll_handle_frag`. -/
def mca_btl_sm_poll_handle_frag (B : Build) (E : ProgressEnv) (hdr : Hdr)
    (endpoint : EpId) (s : State) : State :=
  if hdr.flags &&& B.MCA_BTL_SM_FLAG_COMPLETE ≠ 0 then
    emit (Event.frag_complete hdr.frag) s
  else
    let reg := E.mca_btl_base_active_message_trigger hdr.tag
    let segment0 : mca_btl_base_segment_t :=
      { seg_addr := SegAddr.after_hdr hdr, seg_len := hdr.len }
    let frag : mca_btl_base_receive_descriptor_t :=
      { endpoint := endpoint,
        des_segments := [segment0, { seg_addr := SegAddr.null, seg_len := 0 }],
        des_segment_count := 1, tag := hdr.tag, cbdata := reg.cbdata }
    let s1 :=
      if hdr.flags &&& B.MCA_BTL_SM_FLAG_SINGLE_COPY ≠ 0 then
        let r := E.sm_get_registation endpoint hdr.sc_iov_base hdr.sc_iov_len
        let frag2 : mca_btl_base_receive_descriptor_t :=
          { frag with
            des_segments := [segment0, { seg_addr := SegAddr.mapped r.2,
                                         seg_len := hdr.sc_iov_len }],
            des_segment_count := 2 }
        emit (Event.return_registration r.1 endpoint) (emit (Event.cbfunc reg.cbfunc frag2) s)
      else
        emit (Event.cbfunc reg.cbfunc frag) s
    let s2 :=
      if B.MCA_BTL_SM_FLAG_SETUP_FBOX &&& hdr.flags ≠ 0 then
        let s1a := emit (Event.setup_fbox_recv endpoint hdr.fbox_base) s1
        { s1a with
          fbox_in_endpoints :=
            Function.update s1a.fbox_in_endpoints s1a.num_fbox_in_endpoints (some endpoint),
          num_fbox_in_endpoints := s1a.num_fbox_in_endpoints + 1 }
      else s1
    emit (Event.fifo_write_back { hdr with flags := B.MCA_BTL_SM_FLAG_COMPLETE } endpoint) s2

/-- Store a new content for the local FIFO. -/
def set_my_fifo (q : List (Hdr × EpId)) (s : State) : State :=
  { s with my_fifo := q }

/-- Modelled from the spec: the FIFO primitive `sm_fifo_read` and the FIFO
record, which are declared in `btl_sm_fifo.h`, not in the component file.  The
local FIFO is a queue of header references; a read returns the oldest queued
header with its sending endpoint, or `none` (for `NULL`) when the head holds
the free sentinel, that is, when nothing is queued.  Every call is recorded
in the trace with its outcome. -/
def sm_fifo_read (s : State) : Option (Hdr × EpId) × State :=
  match s.my_fifo with
  | [] => (none, emit (Event.fifo_read false) s)
  | x :: rest => (some x, set_my_fifo rest (emit (Event.fifo_read true) s))

/-- The `for` loop of `mca_btl_sm_poll_fifo` with `remaining` iterations left
before `fifo_count` reaches 31, followed by the final `return 1`. -/
def poll_fifo_loop (B : Build) (E : ProgressEnv) : Nat → Nat → State → Int × State
  | 0, _, s => (1, s)
  | remaining + 1, fifo_count, s =>
    match sm_fifo_read s with
    | (none, s1) => ((fifo_count : Int), s1)
    | (some (hdr, endpoint), s1) =>
      poll_fifo_loop B E remaining (fifo_count + 1)
        (mca_btl_sm_poll_handle_frag B E hdr endpoint s1)

/-- Function `mca_btl_sm_poll_fifo`. -/
def mca_btl_sm_poll_fifo (B : Build) (E : ProgressEnv) (s : State) : Int × State :=
  poll_fifo_loop B E 31 0 s

/-- Store a new value for one endpoint. -/
def set_endpoint (ep : EpId) (e : Endpoint) (s : State) : State :=
  { s with endpoints := Function.update s.endpoints ep e }

/-- The `OPAL_LIST_FOREACH_SAFE` loop of `mca_btl_sm_progress_waiting` over the
fragments still to visit; the result is false when the loop left through the
early `return`. -/
def progress_waiting_loop (E : ProgressEnv) (ep : EpId) :
    List mca_btl_sm_frag_t → State → Bool × State
  | [], s => (true, s)
  | frag :: next, s =>
    let e := s.endpoints ep
    let ret := E.sm_fifo_write_ep ep e.fifo_write_attempts frag.hdr
    let s1 := set_endpoint ep { e with fifo_write_attempts := e.fifo_write_attempts + 1 } s
    if !ret then (false, s1)
    else
      let s2 := emit (Event.fifo_write_ep frag.hdr ep) s1
      let e2 := s2.endpoints ep
      progress_waiting_loop E ep next
        (set_endpoint ep { e2 with pending_frags := e2.pending_frags.tail } s2)

/-- Function `mca_btl_sm_progress_waiting`; `none` stands for a `NULL` endpoint. -/
def mca_btl_sm_progress_waiting (E : ProgressEnv) (ep : Option EpId) (s : State) : State :=
  match ep with
  | none => s
  | some ep =>
    match progress_waiting_loop E ep (s.endpoints ep).pending_frags s with
    | (false, s1) => s1
    | (true, s1) =>
      let s2 := set_endpoint ep { s1.endpoints ep with waiting := false } s1
      { s2 with pending_endpoints := s2.pending_endpoints.erase ep }

/-- Function `mca_btl_sm_progress_endpoints`. -/
def mca_btl_sm_progress_endpoints (E : ProgressEnv) (s : State) : State :=
  if 0 = s.pending_endpoints.length then s
  else
    s.pending_endpoints.foldl (fun st ep => mca_btl_sm_progress_waiting E (some ep) st) s

/-- The part of `mca_btl_sm_component_progress` between taking the guard and
testing the FIFO head: the fast-box poll, which sets `count`, and the drain
of the waiting endpoints. -/
def progress_before_fifo (E : ProgressEnv) (s0 : State) : Int × State :=
  let r := if s0.num_fbox_in_endpoints ≠ 0 then E.mca_btl_sm_check_fboxes s0 else (0, s0)
  (r.1, mca_btl_sm_progress_endpoints E r.2)

/-- Function `mca_btl_sm_component_progress`. -/
def mca_btl_sm_component_progress (B : Build) (E : ProgressEnv) (s : State) : Int × State :=
  if E.opal_using_threads && decide (s.lock ≠ 0) then (0, { s with lock := 1 })
  else
    let s0 := if E.opal_using_threads then { s with lock := 1 } else s
    let r := progress_before_fifo E s0
    let count := r.1
    let s2 := r.2
    if s2.my_fifo.isEmpty then (count, { s2 with lock := 0 })
    else
      let p := mca_btl_sm_poll_fifo B E s2
      (count + p.1, { emit Event.mb p.2 with lock := 0 })

/-! ## Reference points used in the statements -/

/-- Whether the initialisation attempted for a mechanism by
`mca_btl_sm_check_single_copy` succeeds in the given environment; the
emulated mechanism and `none` have no step that can fail. -/
def init_succeeds (B : Build) (E : SingleCopyEnv) : Mechanism → Bool
  | Mechanism.XPMEM => decide (E.xpmem_init.rc = OPAL_SUCCESS)
  | Mechanism.CMA => cma_happy B E
  | Mechanism.KNEM => decide (E.knem_init.rc = OPAL_SUCCESS)
  | Mechanism.EMUL => true
  | Mechanism.NONE => true

/-- The first mechanism of the preference table, at or after `start`, whose
initialisation succeeds. -/
def first_working (B : Build) (E : SingleCopyEnv) (start : Mechanism) : Option Mechanism :=
  ((single_copy_mechanisms B).dropWhile (fun m => decide (m ≠ start))).find?
    (init_succeeds B E)

/-- The help topic the component prints for a mechanism that failed. -/
def help_topic : Mechanism → String
  | Mechanism.XPMEM => "xpmem-make-failed"
  | Mechanism.CMA => "cma-permission-denied"
  | Mechanism.KNEM => "knem requested but not available"
  | Mechanism.EMUL => ""
  | Mechanism.NONE => ""

/-- The help messages in a trace, in order. -/
def help_topics : List Event → List String
  | [] => []
  | Event.show_help t :: rest => t :: help_topics rest
  | _ :: rest => help_topics rest

/-- A build with all three kernel-assisted mechanisms compiled in, with sample
values for the header constants. -/
def full_build : Build :=
  { have_xpmem := true, have_cma := true, have_knem := true,
    have_pr_set_ptracer := true,
    MCA_BTL_FLAGS_RDMA := 6,
    MCA_BTL_SM_FLAG_COMPLETE := 2,
    MCA_BTL_SM_FLAG_SINGLE_COPY := 1,
    MCA_BTL_SM_FLAG_SETUP_FBOX := 4,
    MCA_BTL_SM_OFFSET_BITS := 32,
    MCA_BTL_SM_FBOX_ALIGNMENT_MASK := 31,
    segment_size_bits := 64,
    ulong_bits := 64,
    MCA_BTL_SM_BITNESS := 64 }

/-- An endpoint with nothing pending. -/
def idle_endpoint : Endpoint :=
  { pending_frags := [], waiting := false, fifo_write_attempts := 0 }

/-- The globals after `mca_btl_sm_component_open` and
`mca_btl_sm_component_register`, for the values the source assigns there to
the fields of `State`; the two flag words are built from constants of
`btl.h` and are taken as arguments. -/
def registered_state (B : Build) (btl_flags btl_atomic_flags : Nat) : State :=
  { single_copy_mechanism := (single_copy_mechanisms B).headD Mechanism.NONE,
    log_attach_align := 21,
    segment_size := if B.have_xpmem && decide (64 = B.MCA_BTL_SM_BITNESS)
                    then 1 <<< 24 else 1 <<< 22,
    fbox_size := 4096,
    fbox_max := 32,
    num_fbox_in_endpoints := 0,
    fbox_in_endpoints := fun _ => none,
    my_segment := SegPtr.null,
    my_fifo := [],
    pending_endpoints := [],
    endpoints := fun _ => idle_endpoint,
    super := { btl_flags := btl_flags, btl_atomic_flags := btl_atomic_flags,
               btl_get := EntryPoint.get_sc_emu, btl_put := EntryPoint.put_sc_emu,
               btl_atomic_op := EntryPoint.emu_aop, btl_atomic_fop := EntryPoint.emu_afop,
               btl_atomic_cswap := EntryPoint.emu_acswap },
    btl_inited := false,
    lock := 0,
    trace := [] }

/-- A backend initialisation that fails and stores nothing. -/
def backend_fails : BackendInit := { rc := -1, install := none }

/-- A backend initialisation that succeeds and installs its get/put pair. -/
def backend_ok (id : Nat) : BackendInit :=
  { rc := 0, install := some (EntryPoint.backend id, EntryPoint.backend (id + 1)) }

/-- An environment given by the outcome of each of the three probes; a CMA
failure is a restricted ptrace scope that `prctl` does not lift. -/
def probe_env (xpmem_ok cma_ok knem_ok : Bool) : SingleCopyEnv :=
  { xpmem_init := if xpmem_ok then backend_ok 10 else backend_fails,
    ptrace_scope_fd := 3,
    ptrace_scope_read := some (if cma_ok then '0' else '1'),
    prctl_ret := -1,
    knem_init := if knem_ok then backend_ok 20 else backend_fails }


/-- Every step of `mca_btl_sm_component_init` that can fail succeeds, where
`m` is the single-copy mechanism in use after selection: there are local
peers, the instance array is allocated, the modex publication succeeds, and
either (xpmem) the anonymous mapping succeeds or (otherwise) the backing file
name is built and the segment is created and attached. -/
def init_steps_succeed (E : InitEnv) (m : Mechanism) : Prop :=
  E.num_local_peers ≠ 0 ∧ E.calloc_ok = true ∧ E.modex_send_rc = OPAL_SUCCESS ∧
    (if m = Mechanism.XPMEM then E.mmap ≠ none
     else 0 ≤ E.asprintf_rc ∧ E.segment_create_rc = OPAL_SUCCESS ∧ E.segment_attach ≠ none)

/-- The all-or-nothing contract of the initialisation, as a predicate on a
result `r`: no instance and a zero count, or the one instance with count one
and `btl_inited` false; no instance under each listed failure; the instance
exactly when every step succeeds. -/
def init_contract (E : InitEnv) (r : InitResult) : Prop :=
  (r.btls = none ∧ r.num_btls = 0 ∨
    r.btls = some [ModuleRef.mca_btl_sm] ∧ r.num_btls = 1 ∧ r.state.btl_inited = false) ∧
  (E.num_local_peers = 0 → r.btls = none) ∧
  (E.calloc_ok = false → r.btls = none) ∧
  (r.state.single_copy_mechanism ≠ Mechanism.XPMEM →
    E.segment_create_rc ≠ OPAL_SUCCESS → r.btls = none) ∧
  (r.state.single_copy_mechanism ≠ Mechanism.XPMEM →
    E.segment_attach = none → r.btls = none) ∧
  (r.state.single_copy_mechanism = Mechanism.XPMEM → E.mmap = none → r.btls = none) ∧
  (E.modex_send_rc ≠ OPAL_SUCCESS → r.btls = none) ∧
  (r.btls = some [ModuleRef.mca_btl_sm] ↔ init_steps_succeed E r.state.single_copy_mechanism)

/-- The registered callbacks invoked in a trace, with the descriptor each
received, in order. -/
def callbacks : List Event → List (Nat × mca_btl_base_receive_descriptor_t)
  | [] => []
  | Event.cbfunc cb d :: rest => (cb, d) :: callbacks rest
  | _ :: rest => callbacks rest

/-- The number of headers handled in a trace: every run of
`mca_btl_sm_poll_handle_frag` makes exactly one call that is either
`mca_btl_sm_frag_complete` or a registered callback. -/
def handled : List Event → Nat
  | [] => 0
  | Event.frag_complete _ :: rest => handled rest + 1
  | Event.cbfunc _ _ :: rest => handled rest + 1
  | _ :: rest => handled rest

/-- Handling a list of headers one after the other. -/
def handle_all (B : Build) (E : ProgressEnv) (l : List (Hdr × EpId)) (s : State) : State :=
  l.foldl (fun st x => mca_btl_sm_poll_handle_frag B E x.1 x.2 st) s

/-- Whether `mca_btl_sm_poll_handle_frag` tracks a new fast box for a header:
the header is not a completion and carries the setup-fast-box flag. -/
def sets_up_fbox (B : Build) (hdr : Hdr) : Bool :=
  decide (hdr.flags &&& B.MCA_BTL_SM_FLAG_COMPLETE = 0) &&
    decide (B.MCA_BTL_SM_FLAG_SETUP_FBOX &&& hdr.flags ≠ 0)

/-- A sample environment: threads in use, the callback for tag `t` is number
`t` with context `100 + t`, the registration lookup answers from the base
address, the first two FIFO writes on an endpoint succeed, and no fast box
holds a message. -/
def sample_env : ProgressEnv :=
  { opal_using_threads := true,
    mca_btl_base_active_message_trigger := fun t => { cbfunc := t, cbdata := 100 + t },
    sm_get_registation := fun _ base _ => (base, base + 4096),
    sm_fifo_write_ep := fun _ n _ => decide (n < 2),
    mca_btl_sm_check_fboxes := fun s => (0, s) }

/-- A sample header with the given flags and tag. -/
def sample_hdr (flags tag : Nat) : Hdr :=
  { flags := flags, tag := tag, len := 64, frag := tag, sc_iov_base := 8192,
    sc_iov_len := 1024, fbox_base := 512 }

/-- A sample initialisation environment in which every step succeeds. -/
def sample_init_env : InitEnv :=
  { num_local_peers := 2, calloc_ok := true, single_copy := probe_env true true true,
    asprintf_rc := 24, segment_create_rc := 0, segment_attach := some 4096,
    mmap := some 8192, modex_send_rc := 0 }

/-- A build without xpmem for a 32-bit target, with sample values for the
header constants: relative offsets take 24 bits. -/
def build32 : Build :=
  { have_xpmem := false, have_cma := true, have_knem := true,
    have_pr_set_ptracer := true,
    MCA_BTL_FLAGS_RDMA := 6,
    MCA_BTL_SM_FLAG_COMPLETE := 2,
    MCA_BTL_SM_FLAG_SINGLE_COPY := 1,
    MCA_BTL_SM_FLAG_SETUP_FBOX := 4,
    MCA_BTL_SM_OFFSET_BITS := 24,
    MCA_BTL_SM_FBOX_ALIGNMENT_MASK := 31,
    segment_size_bits := 32,
    ulong_bits := 32,
    MCA_BTL_SM_BITNESS := 32 }

/-- A sample state with two waiting endpoints: endpoint 3 with three pending
fragments and endpoint 5 with one. -/
def waiting_state : State :=
  { registered_state full_build 7 0 with
    pending_endpoints := [3, 5],
    endpoints := fun i =>
      if i = 3 then
        { pending_frags := [{ hdr := sample_hdr 0 1 }, { hdr := sample_hdr 0 2 },
            { hdr := sample_hdr 0 3 }],
          waiting := true, fifo_write_attempts := 0 }
      else if i = 5 then
        { pending_frags := [{ hdr := sample_hdr 0 4 }], waiting := true,
          fifo_write_attempts := 0 }
      else idle_endpoint }

/-- The number of `sm_fifo_read` calls with the given outcome in a trace. -/
def reads (found : Bool) : List Event → Nat
  | [] => 0
  | Event.fifo_read b :: rest => (if b = found then 1 else 0) + reads found rest
  | _ :: rest => reads found rest

/-- Reading and handling a list of headers one after the other: for each, the
successful `sm_fifo_read` call and then `mca_btl_sm_poll_handle_frag`. -/
def read_handle_all (B : Build) (E : ProgressEnv) (l : List (Hdr × EpId)) (s : State) : State :=
  l.foldl (fun st x => mca_btl_sm_poll_handle_frag B E x.1 x.2 (emit (Event.fifo_read true) st)) s

/-- A sample environment whose fast-box poll handles two messages, passing
each to callback 7, and returns 2. -/
def fbox_env : ProgressEnv :=
  { sample_env with
    mca_btl_sm_check_fboxes := fun s =>
      (2, emit (Event.cbfunc 7
            { endpoint := 1, des_segments := [], des_segment_count := 0, tag := 7,
              cbdata := 107 })
          (emit (Event.cbfunc 7
            { endpoint := 2, des_segments := [], des_segment_count := 0, tag := 7,
              cbdata := 107 }) s)) }

/-- A sample state with one fast box tracked, the guard free and 31
completion headers queued in the local FIFO. -/
def busy_state : State :=
  { registered_state full_build 7 0 with
    num_fbox_in_endpoints := 1,
    my_fifo := List.replicate 31 (sample_hdr 2 1, 1) }

/-! # Theorems -/

/-! ## Frame lemmas for the selection blocks -/

@[simp] theorem emit_single_copy_mechanism (e : Event) (s : State) :
    (emit e s).single_copy_mechanism = s.single_copy_mechanism := rfl

@[simp] theorem emit_super (e : Event) (s : State) : (emit e s).super = s.super := rfl

@[simp] theorem emit_trace (e : Event) (s : State) : (emit e s).trace = s.trace ++ [e] := rfl

@[simp] theorem apply_install_single_copy_mechanism (i : BackendInit) (s : State) :
    (apply_install i s).single_copy_mechanism = s.single_copy_mechanism := by
  unfold apply_install
  cases i.install <;> rfl

@[simp] theorem apply_install_trace (i : BackendInit) (s : State) :
    (apply_install i s).trace = s.trace := by
  unfold apply_install
  cases i.install <;> rfl

@[simp] theorem apply_install_btl_flags (i : BackendInit) (s : State) :
    (apply_install i s).super.btl_flags = s.super.btl_flags := by
  unfold apply_install
  cases i.install <;> rfl

theorem apply_install_none (i : BackendInit) (s : State) (h : i.install = none) :
    apply_install i s = s := by
  unfold apply_install
  rw [h]

/-- The mechanism left by `mca_btl_sm_check_single_copy` depends only on the
build, the environment and the mechanism configured at entry. -/
theorem check_single_copy_mechanism_eq (B : Build) (E : SingleCopyEnv) (s : State) :
    (mca_btl_sm_check_single_copy B E s).single_copy_mechanism =
      (if B.have_xpmem = true ∧ s.single_copy_mechanism = Mechanism.XPMEM ∧
            init_succeeds B E Mechanism.XPMEM = false then
          if B.have_cma = true then
            if init_succeeds B E Mechanism.CMA = false then
              if B.have_knem = true then
                if init_succeeds B E Mechanism.KNEM = false then Mechanism.EMUL
                else Mechanism.KNEM
              else Mechanism.EMUL
            else Mechanism.CMA
          else if B.have_knem = true then
            if init_succeeds B E Mechanism.KNEM = false then Mechanism.EMUL
            else Mechanism.KNEM
          else Mechanism.EMUL
        else if B.have_cma = true ∧ s.single_copy_mechanism = Mechanism.CMA ∧
            init_succeeds B E Mechanism.CMA = false then
          if B.have_knem = true then
            if init_succeeds B E Mechanism.KNEM = false then Mechanism.EMUL
            else Mechanism.KNEM
          else Mechanism.EMUL
        else if B.have_knem = true ∧ s.single_copy_mechanism = Mechanism.KNEM ∧
            init_succeeds B E Mechanism.KNEM = false then Mechanism.EMUL
        else s.single_copy_mechanism) := by
  have hx : (OPAL_SUCCESS ≠ E.xpmem_init.rc) ↔ init_succeeds B E Mechanism.XPMEM = false := by
    simp [init_succeeds, eq_comm]
  have hk : (OPAL_SUCCESS ≠ E.knem_init.rc) ↔ init_succeeds B E Mechanism.KNEM = false := by
    simp [init_succeeds, eq_comm]
  have hc : cma_happy B E = init_succeeds B E Mechanism.CMA := rfl
  generalize init_succeeds B E Mechanism.XPMEM = ox at hx
  generalize init_succeeds B E Mechanism.KNEM = ok at hk
  generalize init_succeeds B E Mechanism.CMA = oc at hc
  obtain ⟨m, a1, a2, a3, a4, a5, a6, a7, a8, a9, a10, a11, a12, a13, a14⟩ := s
  cases hxp : B.have_xpmem <;> cases hcm : B.have_cma <;> cases hkn : B.have_knem <;>
    cases m <;> cases ox <;> cases oc <;> cases ok <;>
    simp [mca_btl_sm_check_single_copy, check_xpmem, check_cma, check_knem, check_none,
      mca_btl_sm_select_next_single_copy_mechanism, select_next_loop,
      single_copy_mechanisms, hxp, hcm, hkn, hx, hk, hc]

/-! ## Single-copy mechanism selection: results -/

/-- C1. For every build, every outcome of the backend initialisations and
every starting mechanism taken from the preference table,
`mca_btl_sm_check_single_copy` leaves `single_copy_mechanism` equal to the
first mechanism at or after the starting one whose initialisation succeeds;
in particular, with xpmem, cma and knem compiled in and xpmem configured,
when xpmem and cma fail and knem succeeds the selected mechanism is knem. -/
theorem check_single_copy_selects_first_working (B : Build) (E : SingleCopyEnv) (s : State)
    (hstart : s.single_copy_mechanism ∈ single_copy_mechanisms B) :
    first_working B E s.single_copy_mechanism =
        some (mca_btl_sm_check_single_copy B E s).single_copy_mechanism ∧
      (B.have_xpmem = true → B.have_cma = true → B.have_knem = true →
        s.single_copy_mechanism = Mechanism.XPMEM →
        init_succeeds B E Mechanism.XPMEM = false →
        init_succeeds B E Mechanism.CMA = false →
        init_succeeds B E Mechanism.KNEM = true →
        (mca_btl_sm_check_single_copy B E s).single_copy_mechanism = Mechanism.KNEM) := by
  rw [check_single_copy_mechanism_eq]
  have he : init_succeeds B E Mechanism.EMUL = true := rfl
  have hn : init_succeeds B E Mechanism.NONE = true := rfl
  refine ⟨?_, ?_⟩
  · revert hstart
    cases hxp : B.have_xpmem <;> cases hcm : B.have_cma <;> cases hkn : B.have_knem <;>
      cases hm : s.single_copy_mechanism <;>
      cases hox : init_succeeds B E Mechanism.XPMEM <;>
      cases hoc : init_succeeds B E Mechanism.CMA <;>
      cases hok : init_succeeds B E Mechanism.KNEM <;>
      simp [first_working, single_copy_mechanisms, hxp, hcm, hkn, hox, hoc, hok, he, hn,
        List.dropWhile, List.find?]
  · intro hxp hcm hkn hm hox hoc hok
    simp [hxp, hcm, hkn, hm, hox, hoc, hok]

/-- Witness for C1: the full build started at xpmem, with xpmem and cma
failing and knem succeeding, ends at knem. -/
theorem check_single_copy_selects_first_working_witness :
    (registered_state full_build 7 0).single_copy_mechanism ∈ single_copy_mechanisms full_build ∧
      first_working full_build (probe_env false false true) Mechanism.XPMEM
        = some Mechanism.KNEM ∧
      (mca_btl_sm_check_single_copy full_build (probe_env false false true)
        (registered_state full_build 7 0)).single_copy_mechanism = Mechanism.KNEM :=
  ⟨by decide, by decide,
    (check_single_copy_selects_first_working full_build (probe_env false false true)
      (registered_state full_build 7 0) (by decide)).2 rfl rfl rfl rfl rfl rfl rfl⟩


@[simp] theorem select_next_trace (B : Build) (s : State) :
    (mca_btl_sm_select_next_single_copy_mechanism B s).trace = s.trace := rfl

@[simp] theorem select_next_super (B : Build) (s : State) :
    (mca_btl_sm_select_next_single_copy_mechanism B s).super = s.super := rfl

/-- Clearing the bits of a mask leaves none of them set. -/
theorem and_not32_and_mask (x mask : Nat) : and_not32 x mask &&& mask = 0 := by
  apply Nat.eq_of_testBit_eq
  intro i
  simp only [and_not32, Nat.testBit_and, Nat.testBit_xor, Nat.testBit_two_pow_sub_one,
    Nat.testBit_mod_two_pow, Nat.zero_testBit]
  by_cases hi : i < 32 <;> cases x.testBit i <;> cases mask.testBit i <;> simp [hi]

/-- C2 fails as stated: in the full build the registered default mechanism is
xpmem, the first table entry, and when its initialisation fails the component
prints the xpmem help message although nothing was requested. -/
theorem default_failure_is_diagnosed :
    (registered_state full_build 7 0).single_copy_mechanism
        = (single_copy_mechanisms full_build).headD Mechanism.NONE ∧
      init_succeeds full_build (probe_env false true true) Mechanism.XPMEM = false ∧
      help_topics (mca_btl_sm_check_single_copy full_build (probe_env false true true)
        (registered_state full_build 7 0)).trace = ["xpmem-make-failed"] := by
  decide

/-- C2, amended. `mca_btl_sm_check_single_copy` prints a help message for a
failed mechanism exactly when that mechanism is the one configured on entry
(`initial_mechanism`), whether configured by request or by default; a
mechanism reached by fallback fails silently.  The calls made are
`mca_btl_sm_sc_emu_init` and then at most that one help message. -/
theorem check_single_copy_diagnoses_initial_only (B : Build) (E : SingleCopyEnv) (s : State) :
    (mca_btl_sm_check_single_copy B E s).trace =
      s.trace ++ Event.sc_emu_init ::
        (if s.single_copy_mechanism ∈ single_copy_mechanisms B ∧
              init_succeeds B E s.single_copy_mechanism = false
         then [Event.show_help (help_topic s.single_copy_mechanism)] else []) := by
  have hx : (OPAL_SUCCESS ≠ E.xpmem_init.rc) ↔ init_succeeds B E Mechanism.XPMEM = false := by
    simp [init_succeeds, eq_comm]
  have hk : (OPAL_SUCCESS ≠ E.knem_init.rc) ↔ init_succeeds B E Mechanism.KNEM = false := by
    simp [init_succeeds, eq_comm]
  have hc : cma_happy B E = init_succeeds B E Mechanism.CMA := rfl
  have he : init_succeeds B E Mechanism.EMUL = true := rfl
  have hn : init_succeeds B E Mechanism.NONE = true := rfl
  obtain ⟨m, a1, a2, a3, a4, a5, a6, a7, a8, a9, a10, a11, a12, a13, a14⟩ := s
  cases hxp : B.have_xpmem <;> cases hcm : B.have_cma <;> cases hkn : B.have_knem <;>
    cases m <;>
    cases hox : init_succeeds B E Mechanism.XPMEM <;>
    cases hoc : init_succeeds B E Mechanism.CMA <;>
    cases hok : init_succeeds B E Mechanism.KNEM <;>
    simp [mca_btl_sm_check_single_copy, check_xpmem, check_cma, check_knem, check_none,
      mca_btl_sm_select_next_single_copy_mechanism, select_next_loop, help_topic,
      single_copy_mechanisms, hxp, hcm, hkn, hx, hk, hc, he, hn, hox, hoc, hok, emit]


/-- C3 fails as stated: in the full build, started at xpmem with xpmem, cma
and knem all failing, the component ends at the emulated mechanism, keeps the
RDMA bits of `btl_flags` and keeps the emulated get and put entry points. -/
theorem all_probes_fail_keeps_rdma :
    init_succeeds full_build (probe_env false false false) Mechanism.XPMEM = false ∧
      init_succeeds full_build (probe_env false false false) Mechanism.CMA = false ∧
      init_succeeds full_build (probe_env false false false) Mechanism.KNEM = false ∧
      (mca_btl_sm_check_single_copy full_build (probe_env false false false)
        (registered_state full_build 7 0)).single_copy_mechanism = Mechanism.EMUL ∧
      (mca_btl_sm_check_single_copy full_build (probe_env false false false)
        (registered_state full_build 7 0)).super.btl_flags
          &&& full_build.MCA_BTL_FLAGS_RDMA = 6 ∧
      (mca_btl_sm_check_single_copy full_build (probe_env false false false)
        (registered_state full_build 7 0)).super.btl_get = EntryPoint.get_sc_emu ∧
      (mca_btl_sm_check_single_copy full_build (probe_env false false false)
        (registered_state full_build 7 0)).super.btl_put = EntryPoint.put_sc_emu := by
  decide

/-- C3, amended. When every compiled-in probe among xpmem, cma and knem fails,
starting from the first entry of the preference table,
`mca_btl_sm_check_single_copy` ends at the emulated mechanism, not at `none`:
`btl_flags` is unchanged, so the RDMA bits are kept, and the get and put
entry points are not unset; when the failing backends store no entry points
the module record is unchanged. -/
theorem all_probes_fail_selects_emulated (B : Build) (E : SingleCopyEnv) (s : State)
    (hstart : s.single_copy_mechanism = (single_copy_mechanisms B).headD Mechanism.NONE)
    (hx : B.have_xpmem = true → init_succeeds B E Mechanism.XPMEM = false)
    (hc : B.have_cma = true → init_succeeds B E Mechanism.CMA = false)
    (hk : B.have_knem = true → init_succeeds B E Mechanism.KNEM = false) :
    (mca_btl_sm_check_single_copy B E s).single_copy_mechanism = Mechanism.EMUL ∧
      (mca_btl_sm_check_single_copy B E s).super.btl_flags = s.super.btl_flags ∧
      (E.xpmem_init.install = none → E.knem_init.install = none →
        (mca_btl_sm_check_single_copy B E s).super = s.super) := by
  have hx1 : (OPAL_SUCCESS ≠ E.xpmem_init.rc) ↔ init_succeeds B E Mechanism.XPMEM = false := by
    simp [init_succeeds, eq_comm]
  have hk1 : (OPAL_SUCCESS ≠ E.knem_init.rc) ↔ init_succeeds B E Mechanism.KNEM = false := by
    simp [init_succeeds, eq_comm]
  have hc1 : cma_happy B E = init_succeeds B E Mechanism.CMA := rfl
  obtain ⟨m, a1, a2, a3, a4, a5, a6, a7, a8, a9, a10, a11, a12, a13, a14⟩ := s
  simp only at hstart
  subst hstart
  refine ⟨?_, ?_, ?_⟩
  · cases hxp : B.have_xpmem <;> cases hcm : B.have_cma <;> cases hkn : B.have_knem <;>
      simp [hxp, hcm, hkn] at hx hc hk <;>
      simp [mca_btl_sm_check_single_copy, check_xpmem, check_cma, check_knem, check_none,
        mca_btl_sm_select_next_single_copy_mechanism, select_next_loop,
        single_copy_mechanisms, hxp, hcm, hkn, hx1, hk1, hc1, hx, hc, hk]
  · cases hxp : B.have_xpmem <;> cases hcm : B.have_cma <;> cases hkn : B.have_knem <;>
      simp [hxp, hcm, hkn] at hx hc hk <;>
      simp [mca_btl_sm_check_single_copy, check_xpmem, check_cma, check_knem, check_none,
        mca_btl_sm_select_next_single_copy_mechanism, select_next_loop,
        single_copy_mechanisms, hxp, hcm, hkn, hx1, hk1, hc1, hx, hc, hk]
  · intro hix hik
    cases hxp : B.have_xpmem <;> cases hcm : B.have_cma <;> cases hkn : B.have_knem <;>
      simp [hxp, hcm, hkn] at hx hc hk <;>
      simp [mca_btl_sm_check_single_copy, check_xpmem, check_cma, check_knem, check_none,
        mca_btl_sm_select_next_single_copy_mechanism, select_next_loop,
        single_copy_mechanisms, hxp, hcm, hkn, hx1, hk1, hc1, hx, hc, hk,
        apply_install_none _ _ hix, apply_install_none _ _ hik]

/-- Witness for C3, amended: the full build with all three probes failing. -/
theorem all_probes_fail_selects_emulated_witness :
    (mca_btl_sm_check_single_copy full_build (probe_env false false false)
        (registered_state full_build 7 0)).single_copy_mechanism = Mechanism.EMUL ∧
      (mca_btl_sm_check_single_copy full_build (probe_env false false false)
        (registered_state full_build 7 0)).super.btl_flags = 7 :=
  ⟨(all_probes_fail_selects_emulated full_build (probe_env false false false)
      (registered_state full_build 7 0) rfl (fun _ => by decide) (fun _ => by decide)
      (fun _ => by decide)).1,
   (all_probes_fail_selects_emulated full_build (probe_env false false false)
      (registered_state full_build 7 0) rfl (fun _ => by decide) (fun _ => by decide)
      (fun _ => by decide)).2.1⟩

/-- C4. Whenever `mca_btl_sm_check_single_copy` returns with
`single_copy_mechanism` equal to `none`, the RDMA bits of `btl_flags` are
clear and `btl_get` and `btl_put` are null. -/
theorem check_single_copy_none_disables_rdma (B : Build) (E : SingleCopyEnv) (s : State)
    (hnone : (mca_btl_sm_check_single_copy B E s).single_copy_mechanism = Mechanism.NONE) :
    (mca_btl_sm_check_single_copy B E s).super.btl_flags &&& B.MCA_BTL_FLAGS_RDMA = 0 ∧
      (mca_btl_sm_check_single_copy B E s).super.btl_get = EntryPoint.null ∧
      (mca_btl_sm_check_single_copy B E s).super.btl_put = EntryPoint.null := by
  unfold mca_btl_sm_check_single_copy at hnone ⊢
  simp only [] at hnone ⊢
  generalize check_knem B E s.single_copy_mechanism
    (check_cma B E s.single_copy_mechanism
      (check_xpmem B E s.single_copy_mechanism (emit Event.sc_emu_init s))) = s3 at hnone ⊢
  unfold check_none at hnone ⊢
  by_cases h : Mechanism.NONE = s3.single_copy_mechanism
  · rw [if_pos h]
    exact ⟨and_not32_and_mask _ _, rfl, rfl⟩
  · rw [if_neg h] at hnone
    exact absurd hnone.symm h

/-- Witness for C4: a run configured with `none` ends at `none`, with the RDMA
bits cleared from the flag word 7 and both entry points null. -/
theorem check_single_copy_none_disables_rdma_witness :
    (mca_btl_sm_check_single_copy full_build (probe_env true true true)
        { registered_state full_build 7 0 with single_copy_mechanism := Mechanism.NONE }
      ).super.btl_flags &&& full_build.MCA_BTL_FLAGS_RDMA = 0 ∧
    (mca_btl_sm_check_single_copy full_build (probe_env true true true)
        { registered_state full_build 7 0 with single_copy_mechanism := Mechanism.NONE }
      ).super.btl_get = EntryPoint.null ∧
    (mca_btl_sm_check_single_copy full_build (probe_env true true true)
        { registered_state full_build 7 0 with single_copy_mechanism := Mechanism.NONE }
      ).super.btl_put = EntryPoint.null :=
  check_single_copy_none_disables_rdma full_build (probe_env true true true)
    { registered_state full_build 7 0 with single_copy_mechanism := Mechanism.NONE } (by decide)


/-! ## Component initialisation: results -/

/-- The mechanism recorded in the state is not changed after the failure label. -/
theorem component_init_failed_mechanism (B : Build) (s : State) :
    (component_init_failed B s).state.single_copy_mechanism = s.single_copy_mechanism := by
  unfold component_init_failed
  split <;> rfl

/-- A result without instance meets the contract when some step has failed. -/
theorem init_contract_of_none (E : InitEnv) (r : InitResult)
    (hb : r.btls = none) (hn : r.num_btls = 0)
    (hf : ¬ init_steps_succeed E r.state.single_copy_mechanism) : init_contract E r := by
  unfold init_contract
  simp [hb, hn, hf]

/-- The tail of the initialisation meets the contract when every earlier step
has succeeded. -/
theorem init_contract_finish (B : Build) (E : InitEnv) (s : State)
    (hp : E.num_local_peers ≠ 0) (hc : E.calloc_ok = true)
    (hseg : if s.single_copy_mechanism = Mechanism.XPMEM then E.mmap ≠ none
      else 0 ≤ E.asprintf_rc ∧ E.segment_create_rc = OPAL_SUCCESS ∧ E.segment_attach ≠ none) :
    init_contract E (component_init_finish B E s) := by
  unfold component_init_finish
  by_cases hmod : OPAL_SUCCESS ≠ E.modex_send_rc
  · rw [if_pos hmod]
    apply init_contract_of_none _ _ rfl rfl
    unfold init_steps_succeed
    intro h
    exact hmod h.2.2.1.symm
  · rw [if_neg hmod]
    have hmod2 : E.modex_send_rc = OPAL_SUCCESS := by
      by_contra h
      exact hmod (fun h2 => h h2.symm)
    unfold init_contract init_steps_succeed
    by_cases hm : s.single_copy_mechanism = Mechanism.XPMEM
    · rw [if_pos hm] at hseg
      simp [emit, hm, hp, hc, hmod2, hseg]
    · rw [if_neg hm] at hseg
      simp [emit, hm, hp, hc, hmod2, hseg]

/-- The initialisation meets its all-or-nothing contract. -/
theorem component_init_contract (B : Build) (E : InitEnv) (s : State) :
    init_contract E (mca_btl_sm_component_init B E s) := by
  unfold mca_btl_sm_component_init
  by_cases hp : 0 = E.num_local_peers
  · rw [if_pos hp]
    exact init_contract_of_none _ _ rfl rfl (fun h => h.1 hp.symm)
  rw [if_neg hp]
  have hp2 : E.num_local_peers ≠ 0 := fun h => hp h.symm
  cases hcal : E.calloc_ok
  · exact init_contract_of_none _ _ rfl rfl (fun h => Bool.false_ne_true (hcal ▸ h.2.1))
  simp only [Bool.not_true, Bool.false_eq_true, if_false]
  generalize (mca_btl_sm_check_single_copy B E.single_copy _) = s3
  by_cases hm : Mechanism.XPMEM ≠ s3.single_copy_mechanism
  · rw [if_pos hm]
    have hm2 : s3.single_copy_mechanism ≠ Mechanism.XPMEM := fun h => hm h.symm
    by_cases ha : 0 > E.asprintf_rc
    · rw [if_pos ha]
      apply init_contract_of_none _ _ rfl rfl
      show ¬ init_steps_succeed E s3.single_copy_mechanism
      unfold init_steps_succeed
      rw [if_neg hm2]
      intro h
      omega
    rw [if_neg ha]
    by_cases hc : OPAL_SUCCESS ≠ E.segment_create_rc
    · rw [if_pos hc]
      apply init_contract_of_none _ _ rfl rfl
      show ¬ init_steps_succeed E s3.single_copy_mechanism
      unfold init_steps_succeed
      rw [if_neg hm2]
      intro h
      exact hc h.2.2.2.2.1.symm
    rw [if_neg hc]
    have hc2 : E.segment_create_rc = OPAL_SUCCESS := by
      by_contra h
      exact hc (fun h2 => h h2.symm)
    cases hat : E.segment_attach with
    | none =>
      apply init_contract_of_none _ _ rfl rfl
      rw [component_init_failed_mechanism]
      show ¬ init_steps_succeed E s3.single_copy_mechanism
      unfold init_steps_succeed
      rw [if_neg hm2]
      intro h
      exact h.2.2.2.2.2 hat
    | some a =>
      apply init_contract_finish B E _ hp2 hcal
      show if s3.single_copy_mechanism = Mechanism.XPMEM then E.mmap ≠ none
        else 0 ≤ E.asprintf_rc ∧ E.segment_create_rc = OPAL_SUCCESS ∧ E.segment_attach ≠ none
      rw [if_neg hm2]
      exact ⟨by omega, hc2, by simp [hat]⟩
  · rw [if_neg hm]
    have hm2 : s3.single_copy_mechanism = Mechanism.XPMEM := by
      by_contra h
      exact hm (fun h2 => h h2.symm)
    cases hmm : E.mmap with
    | none =>
      apply init_contract_of_none _ _ rfl rfl
      show ¬ init_steps_succeed E s3.single_copy_mechanism
      unfold init_steps_succeed
      rw [if_pos hm2]
      intro h
      exact h.2.2.2 hmm
    | some a =>
      apply init_contract_finish B E _ hp2 hcal
      show if s3.single_copy_mechanism = Mechanism.XPMEM then E.mmap ≠ none
        else 0 ≤ E.asprintf_rc ∧ E.segment_create_rc = OPAL_SUCCESS ∧ E.segment_attach ≠ none
      rw [if_pos hm2]
      simp [hmm]

/-- C5. `mca_btl_sm_component_init` returns either no instance with
`*num_btls = 0`, or exactly the one instance `&mca_btl_sm` with
`*num_btls = 1` and `btl_inited = false`.  It returns no instance when there
are no local peers, when the instance array cannot be allocated, and when
segment creation, segment attach, the anonymous mapping or the modex
publication fails; it returns the instance exactly when every step succeeds. -/
theorem component_init_all_or_nothing (B : Build) (E : InitEnv) (s : State) :
    ((mca_btl_sm_component_init B E s).btls = none ∧
        (mca_btl_sm_component_init B E s).num_btls = 0 ∨
      (mca_btl_sm_component_init B E s).btls = some [ModuleRef.mca_btl_sm] ∧
        (mca_btl_sm_component_init B E s).num_btls = 1 ∧
        (mca_btl_sm_component_init B E s).state.btl_inited = false) ∧
    (E.num_local_peers = 0 → (mca_btl_sm_component_init B E s).btls = none) ∧
    (E.calloc_ok = false → (mca_btl_sm_component_init B E s).btls = none) ∧
    ((mca_btl_sm_component_init B E s).state.single_copy_mechanism ≠ Mechanism.XPMEM →
      E.segment_create_rc ≠ OPAL_SUCCESS → (mca_btl_sm_component_init B E s).btls = none) ∧
    ((mca_btl_sm_component_init B E s).state.single_copy_mechanism ≠ Mechanism.XPMEM →
      E.segment_attach = none → (mca_btl_sm_component_init B E s).btls = none) ∧
    ((mca_btl_sm_component_init B E s).state.single_copy_mechanism = Mechanism.XPMEM →
      E.mmap = none → (mca_btl_sm_component_init B E s).btls = none) ∧
    (E.modex_send_rc ≠ OPAL_SUCCESS → (mca_btl_sm_component_init B E s).btls = none) ∧
    ((mca_btl_sm_component_init B E s).btls = some [ModuleRef.mca_btl_sm] ↔
      init_steps_succeed E (mca_btl_sm_component_init B E s).state.single_copy_mechanism) :=
  component_init_contract B E s


/-! ## Draining the pending fragments of an endpoint -/

@[simp] theorem set_endpoint_endpoints_self (ep : EpId) (e : Endpoint) (s : State) :
    (set_endpoint ep e s).endpoints ep = e := by
  simp [set_endpoint]

@[simp] theorem set_endpoint_trace (ep : EpId) (e : Endpoint) (s : State) :
    (set_endpoint ep e s).trace = s.trace := rfl

@[simp] theorem emit_endpoints (e : Event) (s : State) : (emit e s).endpoints = s.endpoints := rfl

/-- The loop of `mca_btl_sm_progress_waiting`, started with the endpoint's
pending list as the list to visit: the fragments written form a prefix of that
list, each written after its `sm_fifo_write_ep` call returned true; what stays
pending is the rest; the loop ends normally exactly when nothing stays
pending, and otherwise the call for the first fragment left returned false. -/
theorem progress_waiting_loop_spec (E : ProgressEnv) (ep : EpId) :
    ∀ (l : List mca_btl_sm_frag_t) (s : State), (s.endpoints ep).pending_frags = l →
      ∃ written : List mca_btl_sm_frag_t,
        written ++ ((progress_waiting_loop E ep l s).2.endpoints ep).pending_frags = l ∧
        (progress_waiting_loop E ep l s).2.trace =
          s.trace ++ written.map (fun f => Event.fifo_write_ep f.hdr ep) ∧
        (∀ i (h : i < written.length),
          E.sm_fifo_write_ep ep ((s.endpoints ep).fifo_write_attempts + i)
            (written.get ⟨i, h⟩).hdr = true) ∧
        ((progress_waiting_loop E ep l s).1 = true ↔
          ((progress_waiting_loop E ep l s).2.endpoints ep).pending_frags = []) ∧
        (∀ f rest, ((progress_waiting_loop E ep l s).2.endpoints ep).pending_frags = f :: rest →
          E.sm_fifo_write_ep ep ((s.endpoints ep).fifo_write_attempts + written.length) f.hdr
            = false) ∧
        ((progress_waiting_loop E ep l s).2.endpoints ep).waiting = (s.endpoints ep).waiting ∧
        (progress_waiting_loop E ep l s).2.pending_endpoints = s.pending_endpoints := by
  intro l
  induction l with
  | nil =>
    intro s hs
    refine ⟨[], ?_, ?_, ?_, ?_, ?_, ?_, ?_⟩ <;> simp [progress_waiting_loop, hs]
  | cons frag next ih =>
    intro s hs
    cases hret : E.sm_fifo_write_ep ep (s.endpoints ep).fifo_write_attempts frag.hdr with
    | false =>
      refine ⟨[], ?_, ?_, ?_, ?_, ?_, ?_, ?_⟩ <;>
        simp [progress_waiting_loop, hret, hs]
      rfl
    | true =>
      have key : ∃ s3 : State,
          progress_waiting_loop E ep (frag :: next) s = progress_waiting_loop E ep next s3 ∧
          s3.endpoints ep =
            { pending_frags := next, waiting := (s.endpoints ep).waiting,
              fifo_write_attempts := (s.endpoints ep).fifo_write_attempts + 1 } ∧
          s3.trace = s.trace ++ [Event.fifo_write_ep frag.hdr ep] ∧
          s3.pending_endpoints = s.pending_endpoints := by
        refine ⟨set_endpoint ep
              { pending_frags := next, waiting := (s.endpoints ep).waiting,
                fifo_write_attempts := (s.endpoints ep).fifo_write_attempts + 1 }
              (emit (Event.fifo_write_ep frag.hdr ep)
                (set_endpoint ep
                  { s.endpoints ep with
                    fifo_write_attempts := (s.endpoints ep).fifo_write_attempts + 1 } s)),
          ?_, ?_, ?_, ?_⟩
        · simp [progress_waiting_loop, hret, hs]
        · simp
        · simp
        · rfl
      obtain ⟨s3, hstep, he3, ht3, hp3⟩ := key
      rw [hstep]
      obtain ⟨w, h1, h2, h3, h4, h5, h6, h7⟩ := ih s3 (by rw [he3])
      rw [he3] at h3 h5 h6
      simp only at h3 h5 h6
      refine ⟨frag :: w, ?_, ?_, ?_, h4, ?_, ?_, ?_⟩
      · simp [h1]
      · rw [h2, ht3]
        simp
      · intro i hi
        cases i with
        | zero => simpa using hret
        | succ j =>
          have := h3 j (by simpa using hi)
          simpa [Nat.add_assoc, Nat.add_comm 1 j] using this
      · intro f rest hf
        have := h5 f rest hf
        simpa [Nat.add_assoc, Nat.add_comm 1 w.length] using this
      · exact h6
      · rw [h7, hp3]

/-- C6. For every endpoint, pending-fragment list and behaviour of
`sm_fifo_write_ep`, `mca_btl_sm_progress_waiting` writes to the peer FIFO
exactly a prefix of the pending list, in order, and leaves the remaining
suffix pending in the same order: the written fragments followed by the
still-pending ones are the original list, the only calls made are the
successful writes of the written fragments, and a fragment stays pending
only because the write of the first one left was refused. -/
theorem progress_waiting_writes_prefix (E : ProgressEnv) (s : State) (ep : EpId) :
    ∃ written : List mca_btl_sm_frag_t,
      written ++ ((mca_btl_sm_progress_waiting E (some ep) s).endpoints ep).pending_frags
        = (s.endpoints ep).pending_frags ∧
      (mca_btl_sm_progress_waiting E (some ep) s).trace =
        s.trace ++ written.map (fun f => Event.fifo_write_ep f.hdr ep) ∧
      (∀ i (h : i < written.length),
        E.sm_fifo_write_ep ep ((s.endpoints ep).fifo_write_attempts + i)
          (written.get ⟨i, h⟩).hdr = true) ∧
      (∀ f rest,
        ((mca_btl_sm_progress_waiting E (some ep) s).endpoints ep).pending_frags = f :: rest →
        E.sm_fifo_write_ep ep ((s.endpoints ep).fifo_write_attempts + written.length) f.hdr
          = false) := by
  obtain ⟨w, h1, h2, h3, h4, h5, -, -⟩ :=
    progress_waiting_loop_spec E ep (s.endpoints ep).pending_frags s rfl
  refine ⟨w, ?_, ?_, h3, ?_⟩
  · unfold mca_btl_sm_progress_waiting
    simp only []
    cases hb : (progress_waiting_loop E ep (s.endpoints ep).pending_frags s).1 with
    | false =>
      have : progress_waiting_loop E ep (s.endpoints ep).pending_frags s =
          (false, (progress_waiting_loop E ep (s.endpoints ep).pending_frags s).2) := by
        rw [← hb]
      rw [this]
      exact h1
    | true =>
      have : progress_waiting_loop E ep (s.endpoints ep).pending_frags s =
          (true, (progress_waiting_loop E ep (s.endpoints ep).pending_frags s).2) := by
        rw [← hb]
      rw [this]
      simpa using h1
  · unfold mca_btl_sm_progress_waiting
    simp only []
    cases hb : (progress_waiting_loop E ep (s.endpoints ep).pending_frags s).1 with
    | false =>
      have : progress_waiting_loop E ep (s.endpoints ep).pending_frags s =
          (false, (progress_waiting_loop E ep (s.endpoints ep).pending_frags s).2) := by
        rw [← hb]
      rw [this]
      exact h2
    | true =>
      have : progress_waiting_loop E ep (s.endpoints ep).pending_frags s =
          (true, (progress_waiting_loop E ep (s.endpoints ep).pending_frags s).2) := by
        rw [← hb]
      rw [this]
      simpa using h2
  · unfold mca_btl_sm_progress_waiting
    simp only []
    cases hb : (progress_waiting_loop E ep (s.endpoints ep).pending_frags s).1 with
    | false =>
      have : progress_waiting_loop E ep (s.endpoints ep).pending_frags s =
          (false, (progress_waiting_loop E ep (s.endpoints ep).pending_frags s).2) := by
        rw [← hb]
      rw [this]
      exact h5
    | true =>
      have : progress_waiting_loop E ep (s.endpoints ep).pending_frags s =
          (true, (progress_waiting_loop E ep (s.endpoints ep).pending_frags s).2) := by
        rw [← hb]
      rw [this]
      simpa using h5


/-! ## Handling one header -/

/-- The callbacks of a concatenated trace. -/
theorem callbacks_append (l1 l2 : List Event) :
    callbacks (l1 ++ l2) = callbacks l1 ++ callbacks l2 := by
  induction l1 with
  | nil => rfl
  | cons e rest ih => cases e <;> simp [callbacks, ih]

/-- C7. For every header whose flags do not contain `complete`,
`mca_btl_sm_poll_handle_frag` calls the callback registered for the header's
tag exactly once, and only after that call (and after returning the
single-copy registration and installing a fast box, when flagged) writes the
header back to the sending endpoint's FIFO with its flags set to exactly the
`complete` value, so that the single-copy and setup-fast-box bits are clear
whenever they are distinct from the `complete` bit. -/
theorem poll_handle_frag_callback_then_complete (B : Build) (E : ProgressEnv) (hdr : Hdr)
    (endpoint : EpId) (s : State)
    (hnc : hdr.flags &&& B.MCA_BTL_SM_FLAG_COMPLETE = 0) :
    ∃ desc : mca_btl_base_receive_descriptor_t,
      (mca_btl_sm_poll_handle_frag B E hdr endpoint s).trace =
        s.trace ++
          [Event.cbfunc (E.mca_btl_base_active_message_trigger hdr.tag).cbfunc desc] ++
          (if hdr.flags &&& B.MCA_BTL_SM_FLAG_SINGLE_COPY ≠ 0 then
            [Event.return_registration
              (E.sm_get_registation endpoint hdr.sc_iov_base hdr.sc_iov_len).1 endpoint]
           else []) ++
          (if B.MCA_BTL_SM_FLAG_SETUP_FBOX &&& hdr.flags ≠ 0 then
            [Event.setup_fbox_recv endpoint hdr.fbox_base]
           else []) ++
          [Event.fifo_write_back { hdr with flags := B.MCA_BTL_SM_FLAG_COMPLETE } endpoint] ∧
      callbacks (mca_btl_sm_poll_handle_frag B E hdr endpoint s).trace =
        callbacks s.trace ++ [((E.mca_btl_base_active_message_trigger hdr.tag).cbfunc, desc)] ∧
      ({ hdr with flags := B.MCA_BTL_SM_FLAG_COMPLETE } : Hdr).flags
        = B.MCA_BTL_SM_FLAG_COMPLETE ∧
      (B.MCA_BTL_SM_FLAG_COMPLETE &&& B.MCA_BTL_SM_FLAG_SINGLE_COPY = 0 →
        B.MCA_BTL_SM_FLAG_SETUP_FBOX &&& B.MCA_BTL_SM_FLAG_COMPLETE = 0 →
        ({ hdr with flags := B.MCA_BTL_SM_FLAG_COMPLETE } : Hdr).flags
            &&& B.MCA_BTL_SM_FLAG_SINGLE_COPY = 0 ∧
          B.MCA_BTL_SM_FLAG_SETUP_FBOX
            &&& ({ hdr with flags := B.MCA_BTL_SM_FLAG_COMPLETE } : Hdr).flags = 0) := by
  have hnc2 : ¬ (hdr.flags &&& B.MCA_BTL_SM_FLAG_COMPLETE ≠ 0) := fun h => h hnc
  unfold mca_btl_sm_poll_handle_frag
  rw [if_neg hnc2]
  refine ⟨if hdr.flags &&& B.MCA_BTL_SM_FLAG_SINGLE_COPY ≠ 0 then
      { endpoint := endpoint,
        des_segments := [{ seg_addr := SegAddr.after_hdr hdr, seg_len := hdr.len },
          { seg_addr := SegAddr.mapped
              (E.sm_get_registation endpoint hdr.sc_iov_base hdr.sc_iov_len).2,
            seg_len := hdr.sc_iov_len }],
        des_segment_count := 2, tag := hdr.tag,
        cbdata := (E.mca_btl_base_active_message_trigger hdr.tag).cbdata }
    else
      { endpoint := endpoint,
        des_segments := [{ seg_addr := SegAddr.after_hdr hdr, seg_len := hdr.len },
          { seg_addr := SegAddr.null, seg_len := 0 }],
        des_segment_count := 1, tag := hdr.tag,
        cbdata := (E.mca_btl_base_active_message_trigger hdr.tag).cbdata },
    ?_, ?_, rfl, fun h1 h2 => ⟨h1, h2⟩⟩
  · by_cases hsc : hdr.flags &&& B.MCA_BTL_SM_FLAG_SINGLE_COPY ≠ 0 <;>
      by_cases hfb : B.MCA_BTL_SM_FLAG_SETUP_FBOX &&& hdr.flags ≠ 0
    · simp only [if_pos hsc, if_pos hfb, emit, List.append_assoc, List.singleton_append,
        List.nil_append, List.append_nil]
    · simp only [if_pos hsc, if_neg hfb, emit, List.append_assoc, List.singleton_append,
        List.nil_append, List.append_nil]
    · simp only [if_neg hsc, if_pos hfb, emit, List.append_assoc, List.singleton_append,
        List.nil_append, List.append_nil]
    · simp only [if_neg hsc, if_neg hfb, emit, List.append_assoc, List.singleton_append,
        List.nil_append, List.append_nil]
  · by_cases hsc : hdr.flags &&& B.MCA_BTL_SM_FLAG_SINGLE_COPY ≠ 0 <;>
      by_cases hfb : B.MCA_BTL_SM_FLAG_SETUP_FBOX &&& hdr.flags ≠ 0
    · simp only [if_pos hsc, if_pos hfb, emit, callbacks_append, callbacks,
        List.append_assoc, List.singleton_append, List.nil_append, List.append_nil]
    · simp only [if_pos hsc, if_neg hfb, emit, callbacks_append, callbacks,
        List.append_assoc, List.singleton_append, List.nil_append, List.append_nil]
    · simp only [if_neg hsc, if_pos hfb, emit, callbacks_append, callbacks,
        List.append_assoc, List.singleton_append, List.nil_append, List.append_nil]
    · simp only [if_neg hsc, if_neg hfb, emit, callbacks_append, callbacks,
        List.append_assoc, List.singleton_append, List.nil_append, List.append_nil]

/-- Witness for C7: a header with the single-copy and setup-fast-box flags
but not the `complete` flag triggers exactly one callback. -/
theorem poll_handle_frag_callback_then_complete_witness :
    (sample_hdr 5 9).flags &&& full_build.MCA_BTL_SM_FLAG_COMPLETE = 0 ∧
      (callbacks (mca_btl_sm_poll_handle_frag full_build sample_env (sample_hdr 5 9) 2
        (registered_state full_build 7 0)).trace).length = 1 ∧
      (mca_btl_sm_poll_handle_frag full_build sample_env (sample_hdr 5 9) 2
        (registered_state full_build 7 0)).trace.getLast? =
          some (Event.fifo_write_back (sample_hdr 2 9) 2) := by
  refine ⟨by decide, ?_, ?_⟩
  · obtain ⟨d, -, h2, -⟩ := poll_handle_frag_callback_then_complete full_build sample_env
      (sample_hdr 5 9) 2 (registered_state full_build 7 0) (by decide)
    rw [h2]
    rfl
  · obtain ⟨d, h1, -, -⟩ := poll_handle_frag_callback_then_complete full_build sample_env
      (sample_hdr 5 9) 2 (registered_state full_build 7 0) (by decide)
    rw [h1]
    simp [sample_hdr, full_build]

/-- C8. For every header whose flags do not contain `complete`, the receive
descriptor that `mca_btl_sm_poll_handle_frag` passes to the callback carries
the sending endpoint, the header's tag and the registration's context value;
it has exactly one segment, the payload following the header with length
`hdr.len`, when the single-copy flag is clear, and exactly two segments, the
second of length `sc_iov.iov_len` at the address given by the registration
lookup, when the single-copy flag is set. -/
theorem poll_handle_frag_descriptor (B : Build) (E : ProgressEnv) (hdr : Hdr)
    (endpoint : EpId) (s : State)
    (hnc : hdr.flags &&& B.MCA_BTL_SM_FLAG_COMPLETE = 0) :
    ∃ desc : mca_btl_base_receive_descriptor_t,
      callbacks (mca_btl_sm_poll_handle_frag B E hdr endpoint s).trace =
        callbacks s.trace ++ [((E.mca_btl_base_active_message_trigger hdr.tag).cbfunc, desc)] ∧
      desc.endpoint = endpoint ∧
      desc.tag = hdr.tag ∧
      desc.cbdata = (E.mca_btl_base_active_message_trigger hdr.tag).cbdata ∧
      (hdr.flags &&& B.MCA_BTL_SM_FLAG_SINGLE_COPY = 0 →
        desc.des_segment_count = 1 ∧
        desc.des_segments.take desc.des_segment_count =
          [{ seg_addr := SegAddr.after_hdr hdr, seg_len := hdr.len }]) ∧
      (hdr.flags &&& B.MCA_BTL_SM_FLAG_SINGLE_COPY ≠ 0 →
        desc.des_segment_count = 2 ∧
        desc.des_segments.take desc.des_segment_count =
          [{ seg_addr := SegAddr.after_hdr hdr, seg_len := hdr.len },
           { seg_addr := SegAddr.mapped
               (E.sm_get_registation endpoint hdr.sc_iov_base hdr.sc_iov_len).2,
             seg_len := hdr.sc_iov_len }]) := by
  have hnc2 : ¬ (hdr.flags &&& B.MCA_BTL_SM_FLAG_COMPLETE ≠ 0) := fun h => h hnc
  unfold mca_btl_sm_poll_handle_frag
  rw [if_neg hnc2]
  by_cases hsc : hdr.flags &&& B.MCA_BTL_SM_FLAG_SINGLE_COPY ≠ 0
  · refine ⟨mca_btl_base_receive_descriptor_t.mk endpoint
        [{ seg_addr := SegAddr.after_hdr hdr, seg_len := hdr.len },
          { seg_addr := SegAddr.mapped
              (E.sm_get_registation endpoint hdr.sc_iov_base hdr.sc_iov_len).2,
            seg_len := hdr.sc_iov_len }]
        2 hdr.tag (E.mca_btl_base_active_message_trigger hdr.tag).cbdata,
      ?_, rfl, rfl, rfl, fun h => absurd h hsc, fun _ => ⟨rfl, rfl⟩⟩
    by_cases hfb : B.MCA_BTL_SM_FLAG_SETUP_FBOX &&& hdr.flags ≠ 0
    · simp only [if_pos hsc, if_pos hfb, emit, callbacks_append, callbacks,
        List.append_assoc, List.singleton_append, List.nil_append, List.append_nil]
    · simp only [if_pos hsc, if_neg hfb, emit, callbacks_append, callbacks,
        List.append_assoc, List.singleton_append, List.nil_append, List.append_nil]
  · refine ⟨mca_btl_base_receive_descriptor_t.mk endpoint
        [{ seg_addr := SegAddr.after_hdr hdr, seg_len := hdr.len },
          { seg_addr := SegAddr.null, seg_len := 0 }]
        1 hdr.tag (E.mca_btl_base_active_message_trigger hdr.tag).cbdata,
      ?_, rfl, rfl, rfl, fun _ => ⟨rfl, rfl⟩, fun h => absurd h hsc⟩
    by_cases hfb : B.MCA_BTL_SM_FLAG_SETUP_FBOX &&& hdr.flags ≠ 0
    · simp only [if_neg hsc, if_pos hfb, emit, callbacks_append, callbacks,
        List.append_assoc, List.singleton_append, List.nil_append, List.append_nil]
    · simp only [if_neg hsc, if_neg hfb, emit, callbacks_append, callbacks,
        List.append_assoc, List.singleton_append, List.nil_append, List.append_nil]

/-- Witness for C8: the descriptors passed for an inline header and for a
single-copy header by the sample environment. -/
theorem poll_handle_frag_descriptor_witness :
    (sample_hdr 0 9).flags &&& full_build.MCA_BTL_SM_FLAG_COMPLETE = 0 ∧
      ∃ desc : mca_btl_base_receive_descriptor_t,
        callbacks (mca_btl_sm_poll_handle_frag full_build sample_env (sample_hdr 0 9) 2
          (registered_state full_build 7 0)).trace = [(9, desc)] ∧
        desc.tag = 9 ∧ desc.cbdata = 109 ∧ desc.des_segment_count = 1 := by
  refine ⟨by decide, ?_⟩
  obtain ⟨d, h1, -, h3, h4, h5, -⟩ := poll_handle_frag_descriptor full_build sample_env
    (sample_hdr 0 9) 2 (registered_state full_build 7 0) (by decide)
  exact ⟨d, h1, h3, h4, (h5 (by decide)).1⟩


/-! ## Fast-box tracking -/

/-- The effect of `mca_btl_sm_poll_handle_frag` on the number of tracked fast
boxes and on the configured maximum. -/
theorem poll_handle_frag_num_fbox (B : Build) (E : ProgressEnv) (hdr : Hdr)
    (endpoint : EpId) (s : State) :
    (mca_btl_sm_poll_handle_frag B E hdr endpoint s).num_fbox_in_endpoints =
        s.num_fbox_in_endpoints + (if sets_up_fbox B hdr = true then 1 else 0) ∧
      (mca_btl_sm_poll_handle_frag B E hdr endpoint s).fbox_max = s.fbox_max := by
  unfold mca_btl_sm_poll_handle_frag sets_up_fbox
  by_cases hc : hdr.flags &&& B.MCA_BTL_SM_FLAG_COMPLETE ≠ 0
  · rw [if_pos hc]
    simp [emit, hc]
  · rw [if_neg hc]
    have hc2 : hdr.flags &&& B.MCA_BTL_SM_FLAG_COMPLETE = 0 := by
      by_contra h
      exact hc h
    by_cases hsc : hdr.flags &&& B.MCA_BTL_SM_FLAG_SINGLE_COPY ≠ 0 <;>
      by_cases hfb : B.MCA_BTL_SM_FLAG_SETUP_FBOX &&& hdr.flags ≠ 0
    · simp only [if_pos hsc, if_pos hfb, emit]
      simp [hc2, hfb]
    · simp only [if_pos hsc, if_neg hfb, emit]
      simp [hc2, hfb]
    · simp only [if_neg hsc, if_pos hfb, emit]
      simp [hc2, hfb]
    · simp only [if_neg hsc, if_neg hfb, emit]
      simp [hc2, hfb]

/-- The effect of handling a list of headers on the number of tracked fast
boxes and on the configured maximum. -/
theorem handle_all_num_fbox (B : Build) (E : ProgressEnv) :
    ∀ (l : List (Hdr × EpId)) (s : State),
      (handle_all B E l s).num_fbox_in_endpoints =
          s.num_fbox_in_endpoints + l.countP (fun x => sets_up_fbox B x.1) ∧
        (handle_all B E l s).fbox_max = s.fbox_max := by
  intro l
  induction l with
  | nil => intro s; simp [handle_all]
  | cons x rest ih =>
    intro s
    have h := ih (mca_btl_sm_poll_handle_frag B E x.1 x.2 s)
    have h0 := poll_handle_frag_num_fbox B E x.1 x.2 s
    unfold handle_all at h ⊢
    rw [List.foldl_cons, h.1, h.2, h0.1, h0.2, List.countP_cons]
    refine ⟨?_, rfl⟩
    omega

@[simp] theorem apply_install_num_fbox (i : BackendInit) (s : State) :
    (apply_install i s).num_fbox_in_endpoints = s.num_fbox_in_endpoints := by
  unfold apply_install
  cases i.install <;> rfl

@[simp] theorem emit_num_fbox (e : Event) (s : State) :
    (emit e s).num_fbox_in_endpoints = s.num_fbox_in_endpoints := rfl

@[simp] theorem select_next_num_fbox (B : Build) (s : State) :
    (mca_btl_sm_select_next_single_copy_mechanism B s).num_fbox_in_endpoints
      = s.num_fbox_in_endpoints := rfl

/-- Mechanism selection does not touch the number of tracked fast boxes. -/
theorem check_single_copy_num_fbox (B : Build) (E : SingleCopyEnv) (s : State) :
    (mca_btl_sm_check_single_copy B E s).num_fbox_in_endpoints = s.num_fbox_in_endpoints := by
  have hx : ∀ i t, (check_xpmem B E i t).num_fbox_in_endpoints = t.num_fbox_in_endpoints := by
    intro i t
    unfold check_xpmem
    split_ifs <;> simp
  have hc : ∀ i t, (check_cma B E i t).num_fbox_in_endpoints = t.num_fbox_in_endpoints := by
    intro i t
    unfold check_cma
    split_ifs <;> simp
  have hk : ∀ i t, (check_knem B E i t).num_fbox_in_endpoints = t.num_fbox_in_endpoints := by
    intro i t
    unfold check_knem
    split_ifs <;> simp
  have hn : ∀ t, (check_none B t).num_fbox_in_endpoints = t.num_fbox_in_endpoints := by
    intro t
    unfold check_none
    split_ifs <;> simp
  unfold mca_btl_sm_check_single_copy
  simp only [hn, hk, hc, hx, emit_num_fbox]

/-- The code after the failure label does not touch the number of tracked
fast boxes. -/
theorem component_init_failed_num_fbox (B : Build) (s : State) :
    (component_init_failed B s).state.num_fbox_in_endpoints = s.num_fbox_in_endpoints := by
  unfold component_init_failed
  split_ifs <;> rfl

/-- The tail of the initialisation does not touch the number of tracked fast
boxes. -/
theorem component_init_finish_num_fbox (B : Build) (E : InitEnv) (s : State) :
    (component_init_finish B E s).state.num_fbox_in_endpoints = s.num_fbox_in_endpoints := by
  unfold component_init_finish
  split_ifs
  · exact component_init_failed_num_fbox B _
  · rfl

/-- Once `mca_btl_sm_component_init` is past the allocation of the instance
array, it leaves no fast box tracked. -/
theorem component_init_num_fbox (B : Build) (E : InitEnv) (s : State)
    (hp : E.num_local_peers ≠ 0) (hc : E.calloc_ok = true) :
    (mca_btl_sm_component_init B E s).state.num_fbox_in_endpoints = 0 := by
  unfold mca_btl_sm_component_init
  rw [if_neg (fun h => hp h.symm)]
  simp only [hc, Bool.not_true, Bool.false_eq_true, if_false]
  split_ifs <;>
    first
    | (simp [check_single_copy_num_fbox]; done)
    | (cases E.segment_attach <;>
        simp [component_init_failed_num_fbox, component_init_finish_num_fbox,
          check_single_copy_num_fbox]; done)
    | (cases E.mmap <;>
        simp [component_init_finish_num_fbox, check_single_copy_num_fbox])

/-- C9 fails as stated: with `fbox_max` configured to 1, after an
initialisation that leaves no box tracked, two headers carrying the
setup-fast-box flag are both accepted and two boxes are tracked. -/
theorem fbox_count_exceeds_max :
    (mca_btl_sm_component_init full_build sample_init_env
        { registered_state full_build 7 0 with fbox_max := 1 }).state.num_fbox_in_endpoints = 0 ∧
      (handle_all full_build sample_env [(sample_hdr 4 1, 1), (sample_hdr 4 2, 2)]
        (mca_btl_sm_component_init full_build sample_init_env
          { registered_state full_build 7 0 with fbox_max := 1 }).state).fbox_max = 1 ∧
      (handle_all full_build sample_env [(sample_hdr 4 1, 1), (sample_hdr 4 2, 2)]
        (mca_btl_sm_component_init full_build sample_init_env
          { registered_state full_build 7 0 with fbox_max := 1 }).state).num_fbox_in_endpoints
        = 2 := by
  decide

/-- C9, amended. `mca_btl_sm_component_init`, once past the allocation of
the instance array, sets `num_fbox_in_endpoints` to 0.  From then on
`mca_btl_sm_poll_handle_frag` adds exactly one tracked box for every header
that is not a completion and carries the setup-fast-box flag, whatever the
value of `fbox_max`, and leaves the count unchanged for every other header;
it never changes `fbox_max`.  After a sequence of headers the count is the
number of such headers in the sequence. -/
theorem fbox_count_is_number_of_setups (B : Build) (IE : InitEnv) (E : ProgressEnv)
    (s : State) (l : List (Hdr × EpId))
    (hp : IE.num_local_peers ≠ 0) (hc : IE.calloc_ok = true) :
    (mca_btl_sm_component_init B IE s).state.num_fbox_in_endpoints = 0 ∧
      (handle_all B E l (mca_btl_sm_component_init B IE s).state).num_fbox_in_endpoints
        = l.countP (fun x => sets_up_fbox B x.1) ∧
      (handle_all B E l (mca_btl_sm_component_init B IE s).state).fbox_max
        = (mca_btl_sm_component_init B IE s).state.fbox_max ∧
      (∀ (hdr : Hdr) (endpoint : EpId) (t : State),
        (mca_btl_sm_poll_handle_frag B E hdr endpoint t).num_fbox_in_endpoints =
            t.num_fbox_in_endpoints + (if sets_up_fbox B hdr = true then 1 else 0) ∧
          (mca_btl_sm_poll_handle_frag B E hdr endpoint t).fbox_max = t.fbox_max) := by
  have h0 := component_init_num_fbox B IE s hp hc
  have h1 := handle_all_num_fbox B E l (mca_btl_sm_component_init B IE s).state
  refine ⟨h0, ?_, h1.2, fun hdr endpoint t => poll_handle_frag_num_fbox B E hdr endpoint t⟩
  rw [h1.1, h0, Nat.zero_add]

/-- Witness for C9, amended: after a successful initialisation with the
registered maximum of 32, three headers of which two ask for a fast box leave
two boxes tracked. -/
theorem fbox_count_is_number_of_setups_witness :
    sample_init_env.num_local_peers ≠ 0 ∧ sample_init_env.calloc_ok = true ∧
      (handle_all full_build sample_env
        [(sample_hdr 4 1, 1), (sample_hdr 0 2, 2), (sample_hdr 5 3, 3)]
        (mca_btl_sm_component_init full_build sample_init_env
          (registered_state full_build 7 0)).state).num_fbox_in_endpoints = 2 := by
  refine ⟨by decide, rfl, ?_⟩
  rw [(fbox_count_is_number_of_setups full_build sample_init_env sample_env
    (registered_state full_build 7 0)
    [(sample_hdr 4 1, 1), (sample_hdr 0 2, 2), (sample_hdr 5 3, 3)] (by decide) rfl).2.1]
  decide


/-! ## Polling the local FIFO -/

@[simp] theorem set_my_fifo_my_fifo (q : List (Hdr × EpId)) (s : State) :
    (set_my_fifo q s).my_fifo = q := rfl

@[simp] theorem set_my_fifo_trace (q : List (Hdr × EpId)) (s : State) :
    (set_my_fifo q s).trace = s.trace := rfl

@[simp] theorem set_my_fifo_set_my_fifo (q r : List (Hdr × EpId)) (s : State) :
    set_my_fifo q (set_my_fifo r s) = set_my_fifo q s := rfl

/-- Handling a header neither reads nor writes the local FIFO. -/
theorem poll_handle_frag_my_fifo_comm (B : Build) (E : ProgressEnv) (hdr : Hdr)
    (endpoint : EpId) (s : State) (q : List (Hdr × EpId)) :
    mca_btl_sm_poll_handle_frag B E hdr endpoint (set_my_fifo q s) =
      set_my_fifo q (mca_btl_sm_poll_handle_frag B E hdr endpoint s) := by
  unfold mca_btl_sm_poll_handle_frag set_my_fifo
  split_ifs <;> rfl

/-- Handling a list of headers neither reads nor writes the local FIFO. -/
theorem handle_all_my_fifo_comm (B : Build) (E : ProgressEnv) :
    ∀ (l : List (Hdr × EpId)) (s : State) (q : List (Hdr × EpId)),
      handle_all B E l (set_my_fifo q s) = set_my_fifo q (handle_all B E l s) := by
  intro l
  induction l with
  | nil => intro s q; rfl
  | cons x rest ih =>
    intro s q
    unfold handle_all at ih ⊢
    rw [List.foldl_cons, List.foldl_cons, poll_handle_frag_my_fifo_comm, ih]

/-- The headers counted in a concatenated trace. -/
theorem handled_append (l1 l2 : List Event) : handled (l1 ++ l2) = handled l1 + handled l2 := by
  induction l1 with
  | nil => simp [handled]
  | cons e rest ih => cases e <;> simp [handled, ih] <;> omega

/-- Each run of `mca_btl_sm_poll_handle_frag` counts as one handled header. -/
theorem poll_handle_frag_handled (B : Build) (E : ProgressEnv) (hdr : Hdr)
    (endpoint : EpId) (s : State) :
    handled (mca_btl_sm_poll_handle_frag B E hdr endpoint s).trace = handled s.trace + 1 := by
  unfold mca_btl_sm_poll_handle_frag
  split_ifs <;> simp [emit, handled_append, handled]

/-- Handling a list of headers counts as many handled headers as the list is long. -/
theorem handle_all_handled (B : Build) (E : ProgressEnv) :
    ∀ (l : List (Hdr × EpId)) (s : State),
      handled (handle_all B E l s).trace = handled s.trace + l.length := by
  intro l
  induction l with
  | nil => intro s; rfl
  | cons x rest ih =>
    intro s
    unfold handle_all at ih ⊢
    rw [List.foldl_cons, ih, poll_handle_frag_handled, List.length_cons]
    omega

/-- Handling a list of headers, each after its read, neither reads nor writes
the content of the local FIFO. -/
theorem read_handle_all_my_fifo_comm (B : Build) (E : ProgressEnv) :
    ∀ (l : List (Hdr × EpId)) (s : State) (q : List (Hdr × EpId)),
      read_handle_all B E l (set_my_fifo q s) = set_my_fifo q (read_handle_all B E l s) := by
  intro l
  induction l with
  | nil => intro s q; rfl
  | cons x rest ih =>
    intro s q
    unfold read_handle_all at ih ⊢
    rw [List.foldl_cons, List.foldl_cons]
    rw [show emit (Event.fifo_read true) (set_my_fifo q s)
        = set_my_fifo q (emit (Event.fifo_read true) s) from rfl]
    rw [poll_handle_frag_my_fifo_comm, ih]

/-- Reading and handling a list of headers counts as many handled headers as
the list is long. -/
theorem read_handle_all_handled (B : Build) (E : ProgressEnv) :
    ∀ (l : List (Hdr × EpId)) (s : State),
      handled (read_handle_all B E l s).trace = handled s.trace + l.length := by
  intro l
  induction l with
  | nil => intro s; rfl
  | cons x rest ih =>
    intro s
    unfold read_handle_all at ih ⊢
    rw [List.foldl_cons, ih, poll_handle_frag_handled, List.length_cons, emit_trace,
      handled_append]
    simp only [handled]
    omega

/-- The reads counted in a concatenated trace. -/
theorem reads_append (found : Bool) (l1 l2 : List Event) :
    reads found (l1 ++ l2) = reads found l1 + reads found l2 := by
  induction l1 with
  | nil => simp [reads]
  | cons e rest ih =>
    cases e <;> simp [reads, ih]
    omega

/-- Handling a header makes no call of `sm_fifo_read`. -/
theorem poll_handle_frag_reads (B : Build) (E : ProgressEnv) (found : Bool) (hdr : Hdr)
    (endpoint : EpId) (s : State) :
    reads found (mca_btl_sm_poll_handle_frag B E hdr endpoint s).trace
      = reads found s.trace := by
  unfold mca_btl_sm_poll_handle_frag
  split_ifs <;> simp [emit, reads_append, reads]

/-- Reading and handling a list of headers makes one successful read per
header and no empty read. -/
theorem read_handle_all_reads (B : Build) (E : ProgressEnv) :
    ∀ (l : List (Hdr × EpId)) (s : State),
      reads true (read_handle_all B E l s).trace = reads true s.trace + l.length ∧
      reads false (read_handle_all B E l s).trace = reads false s.trace := by
  intro l
  induction l with
  | nil => intro s; exact ⟨rfl, rfl⟩
  | cons x rest ih =>
    intro s
    unfold read_handle_all at ih ⊢
    rw [List.foldl_cons, (ih _).1, (ih _).2, poll_handle_frag_reads, poll_handle_frag_reads,
      List.length_cons, emit_trace, reads_append, reads_append]
    simp only [reads]
    constructor
    · simp
      omega
    · simp

/-- Reading from an empty local FIFO. -/
theorem sm_fifo_read_nil (s : State) (h : s.my_fifo = []) :
    sm_fifo_read s = (none, emit (Event.fifo_read false) s) := by
  unfold sm_fifo_read
  rw [h]

/-- Reading from a non-empty local FIFO. -/
theorem sm_fifo_read_cons (s : State) (x : Hdr × EpId) (rest : List (Hdr × EpId))
    (h : s.my_fifo = x :: rest) :
    sm_fifo_read s = (some x, set_my_fifo rest (emit (Event.fifo_read true) s)) := by
  unfold sm_fifo_read
  rw [h]

/-- The loop of `mca_btl_sm_poll_fifo` with `n` iterations left: it reads and
handles the first `n` queued headers in order, or all of them when fewer are
queued, in which case it makes one more read, which finds the FIFO empty, and
returns the running count; otherwise it returns 1. -/
theorem poll_fifo_loop_spec (B : Build) (E : ProgressEnv) :
    ∀ (n c : Nat) (s : State),
      poll_fifo_loop B E n c s =
        ((if s.my_fifo.length < n then ((c + s.my_fifo.length : Nat) : Int) else 1),
          (if s.my_fifo.length < n then
            emit (Event.fifo_read false)
              (read_handle_all B E (s.my_fifo.take n) (set_my_fifo (s.my_fifo.drop n) s))
           else
            read_handle_all B E (s.my_fifo.take n) (set_my_fifo (s.my_fifo.drop n) s))) := by
  intro n
  induction n with
  | zero =>
    intro c s
    simp only [poll_fifo_loop, Nat.not_lt_zero, if_false, List.take_zero, List.drop_zero,
      read_handle_all, List.foldl_nil]
    rfl
  | succ n ih =>
    intro c s
    cases hq : s.my_fifo with
    | nil =>
      have hs : set_my_fifo [] s = s := by rw [← hq]; rfl
      simp only [poll_fifo_loop, sm_fifo_read_nil s hq, List.take_nil, List.drop_nil,
        List.length_nil, read_handle_all, List.foldl_nil, hs]
      simp
    | cons x rest =>
      have hstep : poll_fifo_loop B E (n + 1) c s =
          poll_fifo_loop B E n (c + 1)
            (mca_btl_sm_poll_handle_frag B E x.1 x.2
              (set_my_fifo rest (emit (Event.fifo_read true) s))) := by
        simp only [poll_fifo_loop, sm_fifo_read_cons s x rest hq]
      have hfold : ∀ d : List (Hdr × EpId),
          read_handle_all B E (x :: rest.take n) (set_my_fifo d s) =
            read_handle_all B E (rest.take n)
              (set_my_fifo d
                (mca_btl_sm_poll_handle_frag B E x.1 x.2 (emit (Event.fifo_read true) s))) := by
        intro d
        rw [← poll_handle_frag_my_fifo_comm]
        rfl
      rw [hstep, ih, poll_handle_frag_my_fifo_comm]
      simp only [set_my_fifo_my_fifo, set_my_fifo_set_my_fifo, List.take_succ_cons,
        List.drop_succ_cons, List.length_cons, hfold]
      by_cases h : rest.length < n
      · rw [if_pos h, if_pos h, if_pos (by omega), if_pos (by omega)]
        congr 1
        push_cast
        omega
      · rw [if_neg h, if_neg h, if_neg (by omega), if_neg (by omega)]

/-- What `mca_btl_sm_poll_fifo` returns and does: it reads and handles the
first 31 queued headers, or all of them and one empty read when fewer are
queued, and returns their number when fewer than 31 were queued and 1
otherwise. -/
theorem poll_fifo_spec (B : Build) (E : ProgressEnv) (t : State) :
    (mca_btl_sm_poll_fifo B E t).1 =
        (if t.my_fifo.length < 31 then (t.my_fifo.length : Int) else 1) ∧
      (mca_btl_sm_poll_fifo B E t).2 =
        (if t.my_fifo.length < 31 then
          emit (Event.fifo_read false)
            (read_handle_all B E (t.my_fifo.take 31) (set_my_fifo (t.my_fifo.drop 31) t))
         else
          read_handle_all B E (t.my_fifo.take 31) (set_my_fifo (t.my_fifo.drop 31) t)) ∧
      handled (mca_btl_sm_poll_fifo B E t).2.trace =
        handled t.trace + min 31 t.my_fifo.length := by
  unfold mca_btl_sm_poll_fifo
  rw [poll_fifo_loop_spec]
  refine ⟨by simp, rfl, ?_⟩
  split_ifs <;>
    simp only [emit_trace, handled_append, handled, read_handle_all_handled, set_my_fifo_trace,
      List.length_take, Nat.add_zero]

/-- With no fast box tracked and 31 headers queued in the local FIFO, one
progress call handles all 31 headers, leaves the FIFO empty and returns 1. -/
theorem progress_returns_one_for_31_headers :
    ({ registered_state full_build 7 0 with
        my_fifo := List.replicate 31 (sample_hdr 2 1, 1) } : State).num_fbox_in_endpoints = 0 ∧
      (mca_btl_sm_component_progress full_build sample_env
        { registered_state full_build 7 0 with
          my_fifo := List.replicate 31 (sample_hdr 2 1, 1) }).1 = 1 ∧
      handled (mca_btl_sm_component_progress full_build sample_env
        { registered_state full_build 7 0 with
          my_fifo := List.replicate 31 (sample_hdr 2 1, 1) }).2.trace = 31 ∧
      (mca_btl_sm_component_progress full_build sample_env
        { registered_state full_build 7 0 with
          my_fifo := List.replicate 31 (sample_hdr 2 1, 1) }).2.my_fifo = [] := by
  decide

/-! ## The progress guard and the idle pass -/

/-- Storing into `lock` the value it already holds changes nothing. -/
theorem set_lock_self (s : State) (l : Int) (h : s.lock = l) : { s with lock := l } = s := by
  subst h
  rfl

/-- With nothing pending and no fast box holding a message, the part of the
progress pass before the FIFO test returns a zero count and changes nothing. -/
theorem progress_before_fifo_idle (E : ProgressEnv) (t : State)
    (hpend : t.pending_endpoints = [])
    (hfbox : t.num_fbox_in_endpoints ≠ 0 → E.mca_btl_sm_check_fboxes t = (0, t)) :
    progress_before_fifo E t = (0, t) := by
  have hr : (if t.num_fbox_in_endpoints ≠ 0 then E.mca_btl_sm_check_fboxes t else (0, t))
      = (0, t) := by
    by_cases h : t.num_fbox_in_endpoints ≠ 0
    · rw [if_pos h, hfbox h]
    · rw [if_neg h]
  unfold progress_before_fifo
  simp only [hr]
  unfold mca_btl_sm_progress_endpoints
  rw [hpend]
  rfl

/-- C11. When the local FIFO is empty, no endpoint is pending and the
fast-box poll finds no message (or no fast box is tracked), a call of
`mca_btl_sm_component_progress` made with the guard at a value the function
itself produces (free, or set while threads are in use) returns 0 and leaves
the whole state, trace of outgoing calls included, equal to the state before
the call; hence any number of repeated calls return 0 and change nothing. -/
theorem component_progress_idle_is_identity (B : Build) (E : ProgressEnv) (s : State)
    (hfifo : s.my_fifo = [])
    (hpend : s.pending_endpoints = [])
    (hfbox : s.num_fbox_in_endpoints ≠ 0 →
      ∀ l : Int, E.mca_btl_sm_check_fboxes { s with lock := l } = (0, { s with lock := l }))
    (hguard : s.lock = 0 ∨ (E.opal_using_threads = true ∧ s.lock = 1)) :
    mca_btl_sm_component_progress B E s = (0, s) ∧
      ∀ n : Nat,
        (fun t => (mca_btl_sm_component_progress B E t).2)^[n] s = s ∧
        (mca_btl_sm_component_progress B E
          ((fun t => (mca_btl_sm_component_progress B E t).2)^[n] s)).1 = 0 := by
  have he : s.my_fifo.isEmpty = true := by rw [hfifo]; rfl
  have hone : mca_btl_sm_component_progress B E s = (0, s) := by
    unfold mca_btl_sm_component_progress
    rcases hguard with h0 | ⟨ht, h1⟩
    · have hg : (E.opal_using_threads && decide (s.lock ≠ 0)) = false := by simp [h0]
      rw [hg]
      simp only [Bool.false_eq_true, if_false]
      cases ht : E.opal_using_threads
      · simp only [Bool.false_eq_true, if_false]
        have hb := progress_before_fifo_idle E s hpend (fun h => by
          have := hfbox h s.lock
          rwa [set_lock_self s s.lock rfl] at this)
        rw [hb]
        show (if s.my_fifo.isEmpty = true then ((0 : Int), { s with lock := 0 }) else _) = (0, s)
        rw [if_pos he, set_lock_self s 0 h0]
      · simp only [if_true]
        have hb := progress_before_fifo_idle E { s with lock := 1 } hpend (fun h => hfbox h 1)
        rw [hb]
        show (if s.my_fifo.isEmpty = true then ((0 : Int), { s with lock := 0 }) else _) = (0, s)
        rw [if_pos he, set_lock_self s 0 h0]
    · have hg : (E.opal_using_threads && decide (s.lock ≠ 0)) = true := by simp [ht, h1]
      rw [hg]
      simp only [if_true]
      rw [set_lock_self s 1 h1]
  have hiter : ∀ n : Nat, (fun t => (mca_btl_sm_component_progress B E t).2)^[n] s = s := by
    intro n
    induction n with
    | zero => rfl
    | succ n ih =>
      rw [Function.iterate_succ_apply', ih]
      simp only [hone]
  refine ⟨hone, fun n => ⟨hiter n, ?_⟩⟩
  rw [hiter n, hone]

/-- Witness for C11: a state with two fast boxes tracked, none of them
holding a message, nothing pending and an empty FIFO is a fixed point of the
progress call. -/
theorem component_progress_idle_is_identity_witness :
    ({ registered_state full_build 7 0 with num_fbox_in_endpoints := 2 } : State).my_fifo = [] ∧
      ({ registered_state full_build 7 0 with num_fbox_in_endpoints := 2 } : State).lock = 0 ∧
      mca_btl_sm_component_progress full_build sample_env
          { registered_state full_build 7 0 with num_fbox_in_endpoints := 2 }
        = (0, { registered_state full_build 7 0 with num_fbox_in_endpoints := 2 }) :=
  ⟨rfl, rfl,
    (component_progress_idle_is_identity full_build sample_env
      { registered_state full_build 7 0 with num_fbox_in_endpoints := 2 }
      rfl rfl (fun _ _ => rfl) (Or.inl rfl)).1⟩

/-! ## Atomic operations and mechanism selection -/

/-- Clearing the bits of a mask in a 32-bit word keeps every bit of a 32-bit
mask disjoint from it. -/
theorem and_not32_and_disjoint (x mask keep : Nat) (hk : keep < 2 ^ 32)
    (hd : keep &&& mask = 0) : and_not32 x mask &&& keep = x &&& keep := by
  apply Nat.eq_of_testBit_eq
  intro i
  have hbit : (keep &&& mask).testBit i = false := by rw [hd]; exact Nat.zero_testBit i
  rw [Nat.testBit_and] at hbit
  simp only [and_not32, Nat.testBit_and, Nat.testBit_xor, Nat.testBit_two_pow_sub_one,
    Nat.testBit_mod_two_pow]
  cases hki : keep.testBit i
  · simp
  · have hi : i < 32 := by
      by_contra hge
      have h32 : keep < 2 ^ i := lt_of_lt_of_le hk (Nat.pow_le_pow_right (by decide) (by omega))
      rw [Nat.testBit_lt_two_pow h32] at hki
      exact Bool.false_ne_true hki
    rw [hki] at hbit
    simp only [Bool.true_and] at hbit
    simp [hi, hbit]

/-- The atomic fields of the module record are not written by a backend's
stores. -/
theorem apply_install_atomics (i : BackendInit) (s : State) :
    (apply_install i s).super.btl_atomic_flags = s.super.btl_atomic_flags ∧
      (apply_install i s).super.btl_atomic_op = s.super.btl_atomic_op ∧
      (apply_install i s).super.btl_atomic_fop = s.super.btl_atomic_fop ∧
      (apply_install i s).super.btl_atomic_cswap = s.super.btl_atomic_cswap := by
  unfold apply_install
  cases i.install <;> exact ⟨rfl, rfl, rfl, rfl⟩

/-- C13. For every starting mechanism and every outcome of the backend
initialisations, `mca_btl_sm_check_single_copy` leaves `btl_atomic_flags` and
the atomic op, fetch-op and compare-swap entry points as they were, and
leaves every bit of `btl_flags` outside the RDMA mask as it was, so the
atomic capability bits are kept; this includes the runs that end at `none`
and clear the RDMA bits. -/
theorem check_single_copy_keeps_atomics (B : Build) (E : SingleCopyEnv) (s : State)
    (atomic_bits : Nat) (h32 : atomic_bits < 2 ^ 32)
    (hdisj : atomic_bits &&& B.MCA_BTL_FLAGS_RDMA = 0) :
    (mca_btl_sm_check_single_copy B E s).super.btl_flags &&& atomic_bits
        = s.super.btl_flags &&& atomic_bits ∧
      (mca_btl_sm_check_single_copy B E s).super.btl_atomic_flags = s.super.btl_atomic_flags ∧
      (mca_btl_sm_check_single_copy B E s).super.btl_atomic_op = s.super.btl_atomic_op ∧
      (mca_btl_sm_check_single_copy B E s).super.btl_atomic_fop = s.super.btl_atomic_fop ∧
      (mca_btl_sm_check_single_copy B E s).super.btl_atomic_cswap = s.super.btl_atomic_cswap := by
  have hx : ∀ i t, (check_xpmem B E i t).super.btl_flags = t.super.btl_flags ∧
      (check_xpmem B E i t).super.btl_atomic_flags = t.super.btl_atomic_flags ∧
      (check_xpmem B E i t).super.btl_atomic_op = t.super.btl_atomic_op ∧
      (check_xpmem B E i t).super.btl_atomic_fop = t.super.btl_atomic_fop ∧
      (check_xpmem B E i t).super.btl_atomic_cswap = t.super.btl_atomic_cswap := by
    intro i t
    unfold check_xpmem
    split_ifs <;> simp [apply_install_atomics]
  have hc : ∀ i t, (check_cma B E i t).super.btl_flags = t.super.btl_flags ∧
      (check_cma B E i t).super.btl_atomic_flags = t.super.btl_atomic_flags ∧
      (check_cma B E i t).super.btl_atomic_op = t.super.btl_atomic_op ∧
      (check_cma B E i t).super.btl_atomic_fop = t.super.btl_atomic_fop ∧
      (check_cma B E i t).super.btl_atomic_cswap = t.super.btl_atomic_cswap := by
    intro i t
    unfold check_cma
    split_ifs <;> simp
  have hk : ∀ i t, (check_knem B E i t).super.btl_flags = t.super.btl_flags ∧
      (check_knem B E i t).super.btl_atomic_flags = t.super.btl_atomic_flags ∧
      (check_knem B E i t).super.btl_atomic_op = t.super.btl_atomic_op ∧
      (check_knem B E i t).super.btl_atomic_fop = t.super.btl_atomic_fop ∧
      (check_knem B E i t).super.btl_atomic_cswap = t.super.btl_atomic_cswap := by
    intro i t
    unfold check_knem
    split_ifs <;> simp [apply_install_atomics]
  have hn : ∀ t, (check_none B t).super.btl_flags &&& atomic_bits
        = t.super.btl_flags &&& atomic_bits ∧
      (check_none B t).super.btl_atomic_flags = t.super.btl_atomic_flags ∧
      (check_none B t).super.btl_atomic_op = t.super.btl_atomic_op ∧
      (check_none B t).super.btl_atomic_fop = t.super.btl_atomic_fop ∧
      (check_none B t).super.btl_atomic_cswap = t.super.btl_atomic_cswap := by
    intro t
    unfold check_none
    split_ifs
    · exact ⟨and_not32_and_disjoint _ _ _ h32 hdisj, rfl, rfl, rfl, rfl⟩
    · exact ⟨rfl, rfl, rfl, rfl, rfl⟩
  unfold mca_btl_sm_check_single_copy
  simp only [hn, hk, hc, hx, emit_super]
  exact ⟨trivial, trivial, trivial, trivial, trivial⟩

/-- Witness for C13: a run configured with `none` clears the RDMA bits 6 of
the flag word 0x67 and keeps its atomic bits 0x60 and the emulated atomic
entry points. -/
theorem check_single_copy_keeps_atomics_witness :
    (mca_btl_sm_check_single_copy full_build (probe_env false false false)
        { registered_state full_build 103 15 with single_copy_mechanism := Mechanism.NONE }
      ).single_copy_mechanism = Mechanism.NONE ∧
    (mca_btl_sm_check_single_copy full_build (probe_env false false false)
        { registered_state full_build 103 15 with single_copy_mechanism := Mechanism.NONE }
      ).super.btl_flags = 97 ∧
    (mca_btl_sm_check_single_copy full_build (probe_env false false false)
        { registered_state full_build 103 15 with single_copy_mechanism := Mechanism.NONE }
      ).super.btl_flags &&& 96 = 96 ∧
    (mca_btl_sm_check_single_copy full_build (probe_env false false false)
        { registered_state full_build 103 15 with single_copy_mechanism := Mechanism.NONE }
      ).super.btl_atomic_op = EntryPoint.emu_aop :=
  ⟨by decide, by decide,
    (check_single_copy_keeps_atomics full_build (probe_env false false false)
      { registered_state full_build 103 15 with single_copy_mechanism := Mechanism.NONE }
      96 (by decide) (by decide)).1,
    (check_single_copy_keeps_atomics full_build (probe_env false false false)
      { registered_state full_build 103 15 with single_copy_mechanism := Mechanism.NONE }
      96 (by decide) (by decide)).2.2.1⟩


/-! ## The segment size settled on by the initialisation -/

@[simp] theorem apply_install_segment_size (i : BackendInit) (s : State) :
    (apply_install i s).segment_size = s.segment_size := by
  unfold apply_install
  cases i.install <;> rfl

@[simp] theorem emit_segment_size (e : Event) (s : State) :
    (emit e s).segment_size = s.segment_size := rfl

@[simp] theorem select_next_segment_size (B : Build) (s : State) :
    (mca_btl_sm_select_next_single_copy_mechanism B s).segment_size = s.segment_size := rfl

/-- Mechanism selection does not touch the segment size. -/
theorem check_single_copy_segment_size (B : Build) (E : SingleCopyEnv) (s : State) :
    (mca_btl_sm_check_single_copy B E s).segment_size = s.segment_size := by
  have hx : ∀ i t, (check_xpmem B E i t).segment_size = t.segment_size := by
    intro i t
    unfold check_xpmem
    split_ifs <;> simp
  have hc : ∀ i t, (check_cma B E i t).segment_size = t.segment_size := by
    intro i t
    unfold check_cma
    split_ifs <;> simp
  have hk : ∀ i t, (check_knem B E i t).segment_size = t.segment_size := by
    intro i t
    unfold check_knem
    split_ifs <;> simp
  have hn : ∀ t, (check_none B t).segment_size = t.segment_size := by
    intro t
    unfold check_none
    split_ifs <;> simp
  unfold mca_btl_sm_check_single_copy
  simp only [hn, hk, hc, hx, emit_segment_size]

/-- The code after the failure label does not touch the segment size. -/
theorem component_init_failed_segment_size (B : Build) (s : State) :
    (component_init_failed B s).state.segment_size = s.segment_size := by
  unfold component_init_failed
  split_ifs <;> rfl

/-- The tail of the initialisation does not touch the segment size. -/
theorem component_init_finish_segment_size (B : Build) (E : InitEnv) (s : State) :
    (component_init_finish B E s).state.segment_size = s.segment_size := by
  unfold component_init_finish
  split_ifs
  · exact component_init_failed_segment_size B _
  · rfl

/-- Once past the allocation of the instance array, the segment size that
`mca_btl_sm_component_init` leaves is the result of its two size checks. -/
theorem component_init_segment_size (B : Build) (E : InitEnv) (s : State)
    (hp : E.num_local_peers ≠ 0) (hc : E.calloc_ok = true) :
    (mca_btl_sm_component_init B E s).state.segment_size
      = sane_segment_size B s.segment_size := by
  unfold mca_btl_sm_component_init
  rw [if_neg (fun h => hp h.symm)]
  simp only [hc, Bool.not_true, Bool.false_eq_true, if_false]
  split_ifs <;>
    first
    | (simp [check_single_copy_segment_size]; done)
    | (cases E.segment_attach <;>
        simp [component_init_failed_segment_size, component_init_finish_segment_size,
          check_single_copy_segment_size]; done)
    | (cases E.mmap <;>
        simp [component_init_finish_segment_size, check_single_copy_segment_size])

/-- The size checks leave a size between 2 MiB and `2 ^ MCA_BTL_SM_OFFSET_BITS`
unchanged, and never leave a size below 2 MiB when offsets take at least 21 bits. -/
theorem sane_segment_size_in_range (B : Build) (seg : Nat)
    (hu : B.MCA_BTL_SM_OFFSET_BITS < B.ulong_bits) :
    (2 ^ 21 ≤ seg → seg ≤ 2 ^ B.MCA_BTL_SM_OFFSET_BITS → sane_segment_size B seg = seg) ∧
      (seg ≤ 2 ^ B.MCA_BTL_SM_OFFSET_BITS → 21 ≤ B.MCA_BTL_SM_OFFSET_BITS →
        2 ^ 21 ≤ sane_segment_size B seg ∧
        sane_segment_size B seg ≤ 2 ^ B.MCA_BTL_SM_OFFSET_BITS) := by
  have h1 : (1 <<< B.MCA_BTL_SM_OFFSET_BITS) % 2 ^ B.ulong_bits
      = 2 ^ B.MCA_BTL_SM_OFFSET_BITS := by
    rw [Nat.one_shiftLeft]
    exact Nat.mod_eq_of_lt (Nat.pow_lt_pow_right (by decide) hu)
  have h2 : (2 <<< 20 : Nat) = 2 ^ 21 := by decide
  unfold sane_segment_size
  simp only [h1, h2]
  refine ⟨fun hlo hhi => ?_, fun hhi hbits => ?_⟩
  · rw [if_neg (show ¬ seg < 2 ^ 21 by omega)]
    rw [if_neg (show ¬ seg > 2 ^ B.MCA_BTL_SM_OFFSET_BITS by omega)]
  · have hpow : 2 ^ 21 ≤ 2 ^ B.MCA_BTL_SM_OFFSET_BITS :=
      Nat.pow_le_pow_right (by decide) hbits
    by_cases hs : seg < 2 ^ 21
    · rw [if_pos hs]
      rw [if_neg (show ¬ 2 ^ 21 > 2 ^ B.MCA_BTL_SM_OFFSET_BITS by omega)]
      exact ⟨le_refl _, hpow⟩
    · rw [if_neg hs]
      rw [if_neg (show ¬ seg > 2 ^ B.MCA_BTL_SM_OFFSET_BITS by omega)]
      exact ⟨by omega, hhi⟩

/-- C14, at the failing inputs. When the configured segment size exceeds
`2 ^ MCA_BTL_SM_OFFSET_BITS` (and the integer types are wide enough to hold
twice that bound), `mca_btl_sm_component_init` settles on
`2 ^ (MCA_BTL_SM_OFFSET_BITS + 1)`, twice the bound it compared against,
which is above the largest size whose relative offsets are representable. -/
theorem component_init_segment_size_overshoots (B : Build) (E : InitEnv) (s : State)
    (hp : E.num_local_peers ≠ 0) (hc : E.calloc_ok = true)
    (hbig : 2 ^ B.MCA_BTL_SM_OFFSET_BITS < s.segment_size)
    (hu : B.MCA_BTL_SM_OFFSET_BITS + 1 < B.ulong_bits)
    (hw : B.MCA_BTL_SM_OFFSET_BITS + 1 < B.segment_size_bits) :
    (mca_btl_sm_component_init B E s).state.segment_size
        = 2 ^ (B.MCA_BTL_SM_OFFSET_BITS + 1) ∧
      2 ^ B.MCA_BTL_SM_OFFSET_BITS < (mca_btl_sm_component_init B E s).state.segment_size := by
  have h1 : (1 <<< B.MCA_BTL_SM_OFFSET_BITS) % 2 ^ B.ulong_bits
      = 2 ^ B.MCA_BTL_SM_OFFSET_BITS := by
    rw [Nat.one_shiftLeft]
    exact Nat.mod_eq_of_lt (Nat.pow_lt_pow_right (by decide) (by omega))
  have h2 : ((2 <<< B.MCA_BTL_SM_OFFSET_BITS) % 2 ^ B.ulong_bits) % 2 ^ B.segment_size_bits
      = 2 ^ (B.MCA_BTL_SM_OFFSET_BITS + 1) := by
    rw [Nat.shiftLeft_eq, Nat.mul_comm, ← Nat.pow_succ]
    rw [Nat.mod_eq_of_lt (Nat.pow_lt_pow_right (by decide) hu),
      Nat.mod_eq_of_lt (Nat.pow_lt_pow_right (by decide) hw)]
  have hval : sane_segment_size B s.segment_size = 2 ^ (B.MCA_BTL_SM_OFFSET_BITS + 1) := by
    unfold sane_segment_size
    simp only [h1, h2]
    rw [if_pos]
    by_cases hs : s.segment_size < 2 <<< 20
    · rw [if_pos hs]
      omega
    · rw [if_neg hs]
      exact hbig
  rw [component_init_segment_size B E s hp hc, hval]
  refine ⟨rfl, ?_⟩
  rw [Nat.pow_succ]
  have : 0 < 2 ^ B.MCA_BTL_SM_OFFSET_BITS := Nat.two_pow_pos _
  omega

/-- Witness for C14: with 24 offset bits, a configured segment size of 20 MiB
becomes 32 MiB, above the 16 MiB bound. -/
theorem component_init_segment_size_overshoots_witness :
    (mca_btl_sm_component_init build32 sample_init_env
        { registered_state build32 7 0 with segment_size := 20971520 }).state.segment_size
      = 33554432 ∧
    2 ^ build32.MCA_BTL_SM_OFFSET_BITS = 16777216 :=
  ⟨(component_init_segment_size_overshoots build32 sample_init_env
      { registered_state build32 7 0 with segment_size := 20971520 }
      (by decide) rfl (by decide) (by decide) (by decide)).1,
    by decide⟩


/-! ## Draining the waiting endpoints -/

@[simp] theorem set_endpoint_endpoints_other (ep e : EpId) (v : Endpoint) (s : State)
    (h : e ≠ ep) : (set_endpoint ep v s).endpoints e = s.endpoints e := by
  simp [set_endpoint, Function.update_noteq h]

@[simp] theorem set_endpoint_pending_endpoints (ep : EpId) (v : Endpoint) (s : State) :
    (set_endpoint ep v s).pending_endpoints = s.pending_endpoints := rfl

/-- The drain loop of one endpoint leaves every other endpoint as it was. -/
theorem progress_waiting_loop_other (E : ProgressEnv) (ep e : EpId) (h : e ≠ ep) :
    ∀ (l : List mca_btl_sm_frag_t) (s : State),
      (progress_waiting_loop E ep l s).2.endpoints e = s.endpoints e := by
  intro l
  induction l with
  | nil => intro s; rfl
  | cons frag next ih =>
    intro s
    cases hret : E.sm_fifo_write_ep ep (s.endpoints ep).fifo_write_attempts frag.hdr with
    | false => simp [progress_waiting_loop, hret, h]
    | true =>
      simp only [progress_waiting_loop, hret, Bool.not_true, Bool.false_eq_true, if_false]
      rw [ih]
      simp [h]

/-- The drain loop of one endpoint depends on the state only through that
endpoint: from two states that agree on it, the loop ends the same way and
leaves the endpoint the same. -/
theorem progress_waiting_loop_local (E : ProgressEnv) (ep : EpId) :
    ∀ (l : List mca_btl_sm_frag_t) (s t : State), s.endpoints ep = t.endpoints ep →
      (progress_waiting_loop E ep l s).1 = (progress_waiting_loop E ep l t).1 ∧
      (progress_waiting_loop E ep l s).2.endpoints ep
        = (progress_waiting_loop E ep l t).2.endpoints ep := by
  intro l
  induction l with
  | nil => intro s t h; exact ⟨rfl, h⟩
  | cons frag next ih =>
    intro s t h
    cases hret : E.sm_fifo_write_ep ep (s.endpoints ep).fifo_write_attempts frag.hdr with
    | false =>
      have hret2 := hret
      rw [h] at hret2
      simp [progress_waiting_loop, hret, hret2, h]
    | true =>
      have hret2 := hret
      rw [h] at hret2
      simp only [progress_waiting_loop, hret, hret2, Bool.not_true, Bool.false_eq_true,
        if_false]
      apply ih
      simp [h]

/-- The result of `mca_btl_sm_progress_waiting` in terms of its loop. -/
theorem progress_waiting_eq (E : ProgressEnv) (ep : EpId) (s : State) :
    mca_btl_sm_progress_waiting E (some ep) s =
      if (progress_waiting_loop E ep (s.endpoints ep).pending_frags s).1 = true then
        { set_endpoint ep
            { (progress_waiting_loop E ep (s.endpoints ep).pending_frags s).2.endpoints ep with
              waiting := false }
            (progress_waiting_loop E ep (s.endpoints ep).pending_frags s).2 with
          pending_endpoints :=
            (progress_waiting_loop E ep (s.endpoints ep).pending_frags s).2.pending_endpoints.erase
              ep }
      else (progress_waiting_loop E ep (s.endpoints ep).pending_frags s).2 := by
  unfold mca_btl_sm_progress_waiting
  simp only []
  generalize progress_waiting_loop E ep (s.endpoints ep).pending_frags s = r
  obtain ⟨b, s1⟩ := r
  cases b <;> simp

/-- Draining one endpoint leaves every other endpoint as it was. -/
theorem progress_waiting_other (E : ProgressEnv) (ep e : EpId) (h : e ≠ ep) (s : State) :
    (mca_btl_sm_progress_waiting E (some ep) s).endpoints e = s.endpoints e := by
  rw [progress_waiting_eq]
  split_ifs
  · show (set_endpoint ep _ _).endpoints e = _
    rw [set_endpoint_endpoints_other _ _ _ _ h, progress_waiting_loop_other E ep e h]
  · exact progress_waiting_loop_other E ep e h _ _

/-- Draining an endpoint depends on the state only through that endpoint. -/
theorem progress_waiting_local (E : ProgressEnv) (ep : EpId) (s t : State)
    (h : s.endpoints ep = t.endpoints ep) :
    (mca_btl_sm_progress_waiting E (some ep) s).endpoints ep
      = (mca_btl_sm_progress_waiting E (some ep) t).endpoints ep := by
  have hl := progress_waiting_loop_local E ep (s.endpoints ep).pending_frags s t h
  rw [progress_waiting_eq, progress_waiting_eq, ← h, hl.1]
  split_ifs
  · show (set_endpoint ep _ _).endpoints ep = (set_endpoint ep _ _).endpoints ep
    rw [set_endpoint_endpoints_self, set_endpoint_endpoints_self, hl.2]
  · exact hl.2

/-- One pass over a list of distinct endpoints leaves each listed endpoint as
a single drain of it from the starting state would, and every endpoint not
listed as it was. -/
theorem progress_endpoints_fold (E : ProgressEnv) :
    ∀ (l : List EpId) (s : State), l.Nodup →
      (∀ e ∈ l,
        (l.foldl (fun st ep => mca_btl_sm_progress_waiting E (some ep) st) s).endpoints e
          = (mca_btl_sm_progress_waiting E (some e) s).endpoints e) ∧
      (∀ e, e ∉ l →
        (l.foldl (fun st ep => mca_btl_sm_progress_waiting E (some ep) st) s).endpoints e
          = s.endpoints e) := by
  intro l
  induction l with
  | nil => intro s _; simp
  | cons e0 rest ih =>
    intro s hnd
    obtain ⟨h0, hrest⟩ := List.nodup_cons.mp hnd
    obtain ⟨ih1, ih2⟩ := ih (mca_btl_sm_progress_waiting E (some e0) s) hrest
    simp only [List.foldl_cons]
    constructor
    · intro e he
      rcases List.mem_cons.mp he with heq | hmem
      · subst heq
        exact ih2 e h0
      · have hne : e ≠ e0 := fun h => h0 (h ▸ hmem)
        rw [ih1 e hmem]
        exact progress_waiting_local E e _ _ (progress_waiting_other E e0 e hne s)
    · intro e he
      have hne : e ≠ e0 := fun h => he (h ▸ List.mem_cons_self _ _)
      have hnr : e ∉ rest := fun h => he (List.mem_cons_of_mem _ h)
      rw [ih2 e hnr]
      exact progress_waiting_other E e0 e hne s

/-- C15. For a waiting endpoint that is on the pending-endpoints list (a
list without repetitions), `mca_btl_sm_progress_waiting` removes it from the
list and clears its waiting flag if and only if its pending-fragment list is
empty on return; when a fragment is left pending, which happens only when a
FIFO write was refused, the list is unchanged and the endpoint is still on it
with waiting set, and this is what happens whenever one of the writes the
call would make is refused.  One call of `mca_btl_sm_progress_endpoints` leaves every
listed endpoint exactly as one drain of it would and every other endpoint
untouched: each listed endpoint is visited exactly once. -/
theorem progress_waiting_removal_iff_drained (E : ProgressEnv) (s : State) (ep : EpId)
    (hw : (s.endpoints ep).waiting = true)
    (hin : ep ∈ s.pending_endpoints)
    (hnd : s.pending_endpoints.Nodup) :
    ((ep ∉ (mca_btl_sm_progress_waiting E (some ep) s).pending_endpoints ∧
        ((mca_btl_sm_progress_waiting E (some ep) s).endpoints ep).waiting = false) ↔
      ((mca_btl_sm_progress_waiting E (some ep) s).endpoints ep).pending_frags = []) ∧
    (((mca_btl_sm_progress_waiting E (some ep) s).endpoints ep).pending_frags ≠ [] →
      (mca_btl_sm_progress_waiting E (some ep) s).pending_endpoints = s.pending_endpoints ∧
      ep ∈ (mca_btl_sm_progress_waiting E (some ep) s).pending_endpoints ∧
      ((mca_btl_sm_progress_waiting E (some ep) s).endpoints ep).waiting = true) ∧
    (∀ k (hk : k < (s.endpoints ep).pending_frags.length),
      E.sm_fifo_write_ep ep ((s.endpoints ep).fifo_write_attempts + k)
        ((s.endpoints ep).pending_frags.get ⟨k, hk⟩).hdr = false →
      ((mca_btl_sm_progress_waiting E (some ep) s).endpoints ep).pending_frags ≠ []) ∧
    (∀ f rest,
      ((mca_btl_sm_progress_waiting E (some ep) s).endpoints ep).pending_frags = f :: rest →
      ∃ n, E.sm_fifo_write_ep ep n f.hdr = false) ∧
    (∀ e ∈ s.pending_endpoints,
      (mca_btl_sm_progress_endpoints E s).endpoints e
        = (mca_btl_sm_progress_waiting E (some e) s).endpoints e) ∧
    (∀ e, e ∉ s.pending_endpoints →
      (mca_btl_sm_progress_endpoints E s).endpoints e = s.endpoints e) := by
  obtain ⟨w, h1, -, h3, h4, h5, h6, h7⟩ :=
    progress_waiting_loop_spec E ep (s.endpoints ep).pending_frags s rfl
  have hfail : ∀ k (hk : k < (s.endpoints ep).pending_frags.length),
      E.sm_fifo_write_ep ep ((s.endpoints ep).fifo_write_attempts + k)
        ((s.endpoints ep).pending_frags.get ⟨k, hk⟩).hdr = false →
      ((progress_waiting_loop E ep (s.endpoints ep).pending_frags s).2.endpoints
        ep).pending_frags ≠ [] := by
    intro k hk hfalse hnil
    rw [hnil, List.append_nil] at h1
    subst h1
    rw [h3 k hk] at hfalse
    exact Bool.noConfusion hfalse
  have hfold := progress_endpoints_fold E s.pending_endpoints s hnd
  have hpe : mca_btl_sm_progress_endpoints E s =
      s.pending_endpoints.foldl (fun st ep => mca_btl_sm_progress_waiting E (some ep) st) s := by
    unfold mca_btl_sm_progress_endpoints
    split_ifs with h0
    · rw [List.eq_nil_of_length_eq_zero h0.symm]
      rfl
    · rfl
  rw [hpe, progress_waiting_eq]
  refine ⟨?_, ?_, ?_, ?_, hfold.1, hfold.2⟩
  · by_cases hb : (progress_waiting_loop E ep (s.endpoints ep).pending_frags s).1 = true
    · rw [if_pos hb]
      have hp := h4.mp hb
      constructor
      · intro _
        show ((set_endpoint ep _ _).endpoints ep).pending_frags = []
        rw [set_endpoint_endpoints_self]
        exact hp
      · intro _
        constructor
        · show ep ∉ List.erase _ ep
          rw [h7]
          exact fun hmem => ((List.Nodup.mem_erase_iff hnd).mp hmem).1 rfl
        · show ((set_endpoint ep _ _).endpoints ep).waiting = false
          rw [set_endpoint_endpoints_self]
    · rw [if_neg hb]
      constructor
      · intro hh
        rw [h6, hw] at hh
        exact absurd hh.2 (by decide)
      · intro hp
        exact absurd (h4.mpr hp) hb
  · by_cases hb : (progress_waiting_loop E ep (s.endpoints ep).pending_frags s).1 = true
    · rw [if_pos hb]
      intro hne
      exfalso
      apply hne
      show ((set_endpoint ep _ _).endpoints ep).pending_frags = []
      rw [set_endpoint_endpoints_self]
      exact h4.mp hb
    · rw [if_neg hb]
      intro _
      refine ⟨h7, ?_, ?_⟩
      · rw [h7]
        exact hin
      · rw [h6, hw]
  · intro k hk hfalse
    have hne := hfail k hk hfalse
    by_cases hb : (progress_waiting_loop E ep (s.endpoints ep).pending_frags s).1 = true
    · exact absurd (h4.mp hb) hne
    · rw [if_neg hb]
      exact hne
  · by_cases hb : (progress_waiting_loop E ep (s.endpoints ep).pending_frags s).1 = true
    · rw [if_pos hb]
      intro f rest hf
      exfalso
      have : ((set_endpoint ep
          { (progress_waiting_loop E ep (s.endpoints ep).pending_frags s).2.endpoints ep with
            waiting := false }
          (progress_waiting_loop E ep (s.endpoints ep).pending_frags s).2).endpoints
            ep).pending_frags = f :: rest := hf
      rw [set_endpoint_endpoints_self] at this
      have hnil := h4.mp hb
      rw [hnil] at this
      exact List.noConfusion this
    · rw [if_neg hb]
      intro f rest hf
      exact ⟨_, h5 f rest hf⟩

/-- Witness for C15: endpoint 3 waits with three fragments and the peer FIFO
accepts two writes, so it stays listed and waiting with one fragment left;
endpoint 5 waits with one fragment, is drained and leaves the list. -/
theorem progress_waiting_removal_iff_drained_witness :
    (((mca_btl_sm_progress_waiting sample_env (some 3) waiting_state).endpoints 3).pending_frags
        ≠ [] ∧
      (mca_btl_sm_progress_waiting sample_env (some 3) waiting_state).pending_endpoints = [3, 5] ∧
      ((mca_btl_sm_progress_waiting sample_env (some 3) waiting_state).endpoints 3).waiting
        = true) ∧
    (((mca_btl_sm_progress_waiting sample_env (some 5) waiting_state).endpoints 5).pending_frags
        = [] ∧
      (mca_btl_sm_progress_waiting sample_env (some 5) waiting_state).pending_endpoints = [3] ∧
      ((mca_btl_sm_progress_waiting sample_env (some 5) waiting_state).endpoints 5).waiting
        = false) ∧
    (mca_btl_sm_progress_endpoints sample_env waiting_state).endpoints 5
      = (mca_btl_sm_progress_waiting sample_env (some 5) waiting_state).endpoints 5 := by
  have h3 := progress_waiting_removal_iff_drained sample_env waiting_state 3
    (by decide) (by decide) (by decide)
  have h5 := progress_waiting_removal_iff_drained sample_env waiting_state 5
    (by decide) (by decide) (by decide)
  have hne : ((mca_btl_sm_progress_waiting sample_env (some 3) waiting_state).endpoints
      3).pending_frags ≠ [] := by decide
  have hnil : ((mca_btl_sm_progress_waiting sample_env (some 5) waiting_state).endpoints
      5).pending_frags = [] := by decide
  refine ⟨⟨hne, (h3.2.1 hne).1, (h3.2.1 hne).2.2⟩, ⟨hnil, by decide, (h5.1.mpr hnil).2⟩, ?_⟩
  exact h3.2.2.2.2.1 5 (by decide)


/-! ## Bounded polling -/

/-- Handling a list of headers leaves the local FIFO as it was. -/
theorem handle_all_my_fifo (B : Build) (E : ProgressEnv) (l : List (Hdr × EpId)) (s : State) :
    (handle_all B E l s).my_fifo = s.my_fifo := by
  have h := handle_all_my_fifo_comm B E l s s.my_fifo
  have hs : set_my_fifo s.my_fifo s = s := rfl
  rw [hs] at h
  rw [h]
  rfl

/-! ## The barrier before the guard is released -/

/-- On the path that polls the FIFO, the last outgoing call of a progress
pass that took the guard is the memory barrier, made before the guard is
reset. -/
theorem component_progress_barrier_on_poll_path (B : Build) (E : ProgressEnv) (s : State)
    (hfree : E.opal_using_threads = false ∨ s.lock = 0)
    (hfifo : (progress_before_fifo E
      (if E.opal_using_threads then { s with lock := 1 } else s)).2.my_fifo ≠ []) :
    (mca_btl_sm_component_progress B E s).2.trace.getLast? = some Event.mb ∧
      (mca_btl_sm_component_progress B E s).2.lock = 0 := by
  have hguard : (E.opal_using_threads && decide (s.lock ≠ 0)) = false := by
    rcases hfree with h | h <;> simp [h]
  unfold mca_btl_sm_component_progress
  rw [hguard]
  simp only [Bool.false_eq_true, if_false]
  generalize progress_before_fifo E (if E.opal_using_threads then { s with lock := 1 } else s)
    = r at hfifo
  cases hq : r.2.my_fifo with
  | nil => exact absurd hq hfifo
  | cons x rest =>
    simp only [List.isEmpty_cons, Bool.false_eq_true, if_false, emit_trace,
      List.getLast?_append, List.getLast?_singleton]
    exact ⟨rfl, trivial⟩

/-- C17, at the failing input. With threads in use, the guard free, two
waiting endpoints and an empty local FIFO, a progress pass takes the guard,
writes three pending fragments to peer FIFOs, finds the FIFO head free and
resets the guard to 0 without any call of the memory barrier. -/
theorem component_progress_early_return_skips_barrier :
    sample_env.opal_using_threads = true ∧
      waiting_state.lock = 0 ∧
      waiting_state.my_fifo = [] ∧
      (mca_btl_sm_component_progress full_build sample_env waiting_state).2.lock = 0 ∧
      (mca_btl_sm_component_progress full_build sample_env waiting_state).2.trace.length = 3 ∧
      Event.mb ∉ (mca_btl_sm_component_progress full_build sample_env waiting_state).2.trace := by
  decide


/-! ## The value returned by a progress pass -/

@[simp] theorem set_endpoint_my_fifo (ep : EpId) (v : Endpoint) (s : State) :
    (set_endpoint ep v s).my_fifo = s.my_fifo := rfl

/-- The drain loop of an endpoint leaves the local FIFO as it was and handles
no header. -/
theorem progress_waiting_loop_frame (E : ProgressEnv) (ep : EpId) :
    ∀ (l : List mca_btl_sm_frag_t) (s : State),
      (progress_waiting_loop E ep l s).2.my_fifo = s.my_fifo ∧
      handled (progress_waiting_loop E ep l s).2.trace = handled s.trace := by
  intro l
  induction l with
  | nil => intro s; exact ⟨rfl, rfl⟩
  | cons frag next ih =>
    intro s
    cases hret : E.sm_fifo_write_ep ep (s.endpoints ep).fifo_write_attempts frag.hdr with
    | false => simp [progress_waiting_loop, hret]
    | true =>
      simp only [progress_waiting_loop, hret, Bool.not_true, Bool.false_eq_true, if_false]
      rw [(ih _).1, (ih _).2]
      refine ⟨rfl, ?_⟩
      simp [handled_append, handled]

/-- Draining an endpoint leaves the local FIFO as it was and handles no header. -/
theorem progress_waiting_frame (E : ProgressEnv) (ep : EpId) (s : State) :
    (mca_btl_sm_progress_waiting E (some ep) s).my_fifo = s.my_fifo ∧
      handled (mca_btl_sm_progress_waiting E (some ep) s).trace = handled s.trace := by
  have h := progress_waiting_loop_frame E ep (s.endpoints ep).pending_frags s
  rw [progress_waiting_eq]
  split_ifs
  · exact h
  · exact h

/-- Draining the waiting endpoints leaves the local FIFO as it was and handles
no header. -/
theorem progress_endpoints_frame (E : ProgressEnv) (s : State) :
    (mca_btl_sm_progress_endpoints E s).my_fifo = s.my_fifo ∧
      handled (mca_btl_sm_progress_endpoints E s).trace = handled s.trace := by
  have hfold : ∀ (l : List EpId) (t : State),
      (l.foldl (fun st ep => mca_btl_sm_progress_waiting E (some ep) st) t).my_fifo = t.my_fifo ∧
      handled (l.foldl (fun st ep => mca_btl_sm_progress_waiting E (some ep) st) t).trace
        = handled t.trace := by
    intro l
    induction l with
    | nil => intro t; exact ⟨rfl, rfl⟩
    | cons e rest ih =>
      intro t
      rw [List.foldl_cons, (ih _).1, (ih _).2]
      exact progress_waiting_frame E e t
  unfold mca_btl_sm_progress_endpoints
  split_ifs
  · exact ⟨rfl, rfl⟩
  · exact hfold _ _

/-- C10, at the failing inputs. When the progress guard is free, the value
returned by `mca_btl_sm_component_progress` is the count returned by
`mca_btl_sm_check_fboxes` (0 when no fast box is tracked) plus the number of
queued FIFO headers when fewer than 31 are queued, but plus 1 when 31 or more
are queued, although 31 headers are then handled: in that case the value is
not the count of events handled.  `mca_btl_sm_poll_fifo` itself returns the
number of headers it handled only when fewer than 31 are queued, and 1 after
handling 31. -/
theorem component_progress_return_value (B : Build) (E : ProgressEnv) (s : State)
    (hfree : E.opal_using_threads = false ∨ s.lock = 0) :
    (s.num_fbox_in_endpoints = 0 →
      (mca_btl_sm_component_progress B E s).1 =
          (if s.my_fifo.length < 31 then (s.my_fifo.length : Int) else 1) ∧
        handled (mca_btl_sm_component_progress B E s).2.trace =
          handled s.trace + min 31 s.my_fifo.length) ∧
    (s.num_fbox_in_endpoints ≠ 0 →
      (mca_btl_sm_component_progress B E s).1 =
          (E.mca_btl_sm_check_fboxes
            (if E.opal_using_threads then { s with lock := 1 } else s)).1 +
          (if (E.mca_btl_sm_check_fboxes
                (if E.opal_using_threads then { s with lock := 1 } else s)).2.my_fifo.length < 31
           then ((E.mca_btl_sm_check_fboxes
                (if E.opal_using_threads then { s with lock := 1 } else s)).2.my_fifo.length : Int)
           else 1) ∧
        handled (mca_btl_sm_component_progress B E s).2.trace =
          handled (E.mca_btl_sm_check_fboxes
            (if E.opal_using_threads then { s with lock := 1 } else s)).2.trace +
          min 31 (E.mca_btl_sm_check_fboxes
            (if E.opal_using_threads then { s with lock := 1 } else s)).2.my_fifo.length) ∧
    (∀ t : State,
      (mca_btl_sm_poll_fifo B E t).1 =
          (if t.my_fifo.length < 31 then (t.my_fifo.length : Int) else 1) ∧
        handled (mca_btl_sm_poll_fifo B E t).2.trace =
          handled t.trace + min 31 t.my_fifo.length) := by
  have hguard : (E.opal_using_threads && decide (s.lock ≠ 0)) = false := by
    rcases hfree with h | h <;> simp [h]
  have hnum : (if E.opal_using_threads then { s with lock := 1 } else s).num_fbox_in_endpoints
      = s.num_fbox_in_endpoints := by
    split_ifs <;> rfl
  have hfifo : (if E.opal_using_threads then { s with lock := 1 } else s).my_fifo
      = s.my_fifo := by
    split_ifs <;> rfl
  have htrace : (if E.opal_using_threads then { s with lock := 1 } else s).trace
      = s.trace := by
    split_ifs <;> rfl
  have key : ∀ r : Int × State,
      ((if (mca_btl_sm_progress_endpoints E r.2).my_fifo.isEmpty = true then
          (r.1, { mca_btl_sm_progress_endpoints E r.2 with lock := 0 })
        else
          (r.1 + (mca_btl_sm_poll_fifo B E (mca_btl_sm_progress_endpoints E r.2)).1,
            { emit Event.mb
                (mca_btl_sm_poll_fifo B E (mca_btl_sm_progress_endpoints E r.2)).2 with
              lock := 0 })).1 =
        r.1 + (if r.2.my_fifo.length < 31 then (r.2.my_fifo.length : Int) else 1)) ∧
      handled ((if (mca_btl_sm_progress_endpoints E r.2).my_fifo.isEmpty = true then
          (r.1, { mca_btl_sm_progress_endpoints E r.2 with lock := 0 })
        else
          (r.1 + (mca_btl_sm_poll_fifo B E (mca_btl_sm_progress_endpoints E r.2)).1,
            { emit Event.mb
                (mca_btl_sm_poll_fifo B E (mca_btl_sm_progress_endpoints E r.2)).2 with
              lock := 0 })).2.trace) =
        handled r.2.trace + min 31 r.2.my_fifo.length := by
    intro r
    have hq := (progress_endpoints_frame E r.2).1
    have hh := (progress_endpoints_frame E r.2).2
    have hp := poll_fifo_spec B E (mca_btl_sm_progress_endpoints E r.2)
    rw [hq] at hp
    cases hl : r.2.my_fifo with
    | nil =>
      have he : (mca_btl_sm_progress_endpoints E r.2).my_fifo.isEmpty = true := by
        rw [hq, hl]
        rfl
      rw [if_pos he]
      refine ⟨by simp, ?_⟩
      show handled (mca_btl_sm_progress_endpoints E r.2).trace = _
      rw [hh]
      simp
    | cons x rest =>
      have he : ¬ (mca_btl_sm_progress_endpoints E r.2).my_fifo.isEmpty = true := by
        rw [hq, hl]
        simp
      rw [if_neg he]
      rw [hl] at hp
      refine ⟨?_, ?_⟩
      · show r.1 + (mca_btl_sm_poll_fifo B E (mca_btl_sm_progress_endpoints E r.2)).1 = _
        rw [hp.1]
      · show handled ((mca_btl_sm_poll_fifo B E (mca_btl_sm_progress_endpoints E r.2)).2.trace
          ++ [Event.mb]) = _
        rw [handled_append, hp.2.2, hh]
        simp [handled]
  refine ⟨?_, ?_, fun t => ⟨(poll_fifo_spec B E t).1, (poll_fifo_spec B E t).2.2⟩⟩
  · intro h0
    unfold mca_btl_sm_component_progress
    rw [hguard]
    simp only [Bool.false_eq_true, if_false]
    unfold progress_before_fifo
    have hn : ¬ (if E.opal_using_threads = true then { s with lock := 1 } else s).num_fbox_in_endpoints
        ≠ 0 := by
      rw [hnum, h0]
      simp
    simp only [if_neg hn]
    have k := key (0, (if E.opal_using_threads = true then { s with lock := 1 } else s))
    simp only [hfifo, htrace] at k
    simpa using k
  · intro h0
    unfold mca_btl_sm_component_progress
    rw [hguard]
    simp only [Bool.false_eq_true, if_false]
    unfold progress_before_fifo
    have hn : (if E.opal_using_threads = true then { s with lock := 1 } else s).num_fbox_in_endpoints
        ≠ 0 := by
      rw [hnum]
      exact h0
    simp only [if_pos hn]
    exact key _

/-- Witness for C10: with the guard free, one fast box tracked whose poll
handles two messages and returns 2, and 31 headers queued, the call handles
33 events and returns 3. -/
theorem component_progress_return_value_witness :
    (fbox_env.opal_using_threads = false ∨ busy_state.lock = 0) ∧
      busy_state.num_fbox_in_endpoints ≠ 0 ∧
      (mca_btl_sm_component_progress full_build fbox_env busy_state).1 = 3 ∧
      handled (mca_btl_sm_component_progress full_build fbox_env busy_state).2.trace = 33 :=
  ⟨Or.inr rfl, by decide,
    (((component_progress_return_value full_build fbox_env busy_state (Or.inr rfl)).2.1
      (by decide)).1).trans (by decide),
    (((component_progress_return_value full_build fbox_env busy_state (Or.inr rfl)).2.1
      (by decide)).2).trans (by decide)⟩

/-! ## A second caller during a progress pass -/

/-- Reading and handling a list of headers leaves the content of the local
FIFO as it was. -/
theorem read_handle_all_my_fifo (B : Build) (E : ProgressEnv) (l : List (Hdr × EpId))
    (s : State) : (read_handle_all B E l s).my_fifo = s.my_fifo := by
  have h := read_handle_all_my_fifo_comm B E l s s.my_fifo
  have hs : set_my_fifo s.my_fifo s = s := rfl
  rw [hs] at h
  rw [h]
  rfl

/-- C16. For every content of the local FIFO, with `k` headers queued before
the first empty read, one call of `mca_btl_sm_poll_fifo` makes `min 31 k`
reads that return a header and, when `k < 31`, exactly one more read, the
empty one at which it stops; it never makes more than 31 reads.  It handles
the `min 31 k` headers it read, each right after its read and in the order
read, and leaves the rest queued. -/
theorem poll_fifo_bounded (B : Build) (E : ProgressEnv) (s : State) :
    reads true (mca_btl_sm_poll_fifo B E s).2.trace
        = reads true s.trace + min 31 s.my_fifo.length ∧
      reads false (mca_btl_sm_poll_fifo B E s).2.trace
        = reads false s.trace + (if s.my_fifo.length < 31 then 1 else 0) ∧
      reads true (mca_btl_sm_poll_fifo B E s).2.trace
          + reads false (mca_btl_sm_poll_fifo B E s).2.trace
        ≤ reads true s.trace + reads false s.trace + 31 ∧
      (mca_btl_sm_poll_fifo B E s).2 =
        (if s.my_fifo.length < 31 then
          emit (Event.fifo_read false)
            (read_handle_all B E (s.my_fifo.take 31) (set_my_fifo (s.my_fifo.drop 31) s))
         else
          read_handle_all B E (s.my_fifo.take 31) (set_my_fifo (s.my_fifo.drop 31) s)) ∧
      (s.my_fifo.take 31).length = min 31 s.my_fifo.length ∧
      handled (mca_btl_sm_poll_fifo B E s).2.trace
        = handled s.trace + min 31 s.my_fifo.length ∧
      (mca_btl_sm_poll_fifo B E s).2.my_fifo = s.my_fifo.drop 31 := by
  have hloop : ∀ (n c : Nat) (u : State),
      poll_fifo_loop B E n c u =
        ((if u.my_fifo.length < n then ((c + u.my_fifo.length : Nat) : Int) else 1),
          (if u.my_fifo.length < n then
            emit (Event.fifo_read false)
              (read_handle_all B E (u.my_fifo.take n) (set_my_fifo (u.my_fifo.drop n) u))
           else
            read_handle_all B E (u.my_fifo.take n) (set_my_fifo (u.my_fifo.drop n) u))) := by
    intro n
    induction n with
    | zero =>
      intro c u
      simp only [poll_fifo_loop, Nat.not_lt_zero, if_false, List.take_zero, List.drop_zero,
        read_handle_all, List.foldl_nil]
      rfl
    | succ n ih =>
      intro c u
      cases hq : u.my_fifo with
      | nil =>
        have hu : set_my_fifo [] u = u := by rw [← hq]; rfl
        have hread : sm_fifo_read u = (none, emit (Event.fifo_read false) u) := by
          unfold sm_fifo_read
          rw [hq]
        simp only [poll_fifo_loop, hread, List.take_nil, List.drop_nil,
          List.length_nil, read_handle_all, List.foldl_nil, hu]
        simp
      | cons x rest =>
        have hread : sm_fifo_read u
            = (some x, set_my_fifo rest (emit (Event.fifo_read true) u)) := by
          unfold sm_fifo_read
          rw [hq]
        have hstep : poll_fifo_loop B E (n + 1) c u =
            poll_fifo_loop B E n (c + 1)
              (mca_btl_sm_poll_handle_frag B E x.1 x.2
                (set_my_fifo rest (emit (Event.fifo_read true) u))) := by
          simp only [poll_fifo_loop, hread]
        have hfold : ∀ d : List (Hdr × EpId),
            read_handle_all B E (x :: rest.take n) (set_my_fifo d u) =
              read_handle_all B E (rest.take n)
                (set_my_fifo d
                  (mca_btl_sm_poll_handle_frag B E x.1 x.2
                    (emit (Event.fifo_read true) u))) := by
          intro d
          rw [← poll_handle_frag_my_fifo_comm]
          rfl
        rw [hstep, ih, poll_handle_frag_my_fifo_comm]
        simp only [set_my_fifo_my_fifo, set_my_fifo_set_my_fifo, List.take_succ_cons,
          List.drop_succ_cons, List.length_cons, hfold]
        by_cases h : rest.length < n
        · rw [if_pos h, if_pos h, if_pos (by omega), if_pos (by omega)]
          congr 1
          push_cast
          omega
        · rw [if_neg h, if_neg h, if_neg (by omega), if_neg (by omega)]
  have hstate : (mca_btl_sm_poll_fifo B E s).2 =
      (if s.my_fifo.length < 31 then
        emit (Event.fifo_read false)
          (read_handle_all B E (s.my_fifo.take 31) (set_my_fifo (s.my_fifo.drop 31) s))
       else
        read_handle_all B E (s.my_fifo.take 31) (set_my_fifo (s.my_fifo.drop 31) s)) := by
    unfold mca_btl_sm_poll_fifo
    rw [hloop]
  have hhandled : handled (mca_btl_sm_poll_fifo B E s).2.trace
      = handled s.trace + min 31 s.my_fifo.length := by
    rw [hstate]
    split_ifs <;>
      simp only [emit_trace, handled_append, handled, read_handle_all_handled,
        set_my_fifo_trace, List.length_take, Nat.add_zero]
  have hr := read_handle_all_reads B E (s.my_fifo.take 31) (set_my_fifo (s.my_fifo.drop 31) s)
  have hm := read_handle_all_my_fifo B E (s.my_fifo.take 31)
    (set_my_fifo (s.my_fifo.drop 31) s)
  have hlen : (s.my_fifo.take 31).length = min 31 s.my_fifo.length := List.length_take _ _
  rw [hlen, set_my_fifo_trace] at hr
  rw [set_my_fifo_my_fifo] at hm
  have ht : reads true (mca_btl_sm_poll_fifo B E s).2.trace
      = reads true s.trace + min 31 s.my_fifo.length := by
    rw [hstate]
    split_ifs
    · rw [emit_trace, reads_append, hr.1]
      simp [reads]
    · exact hr.1
  have hf : reads false (mca_btl_sm_poll_fifo B E s).2.trace
      = reads false s.trace + (if s.my_fifo.length < 31 then 1 else 0) := by
    rw [hstate]
    split_ifs
    · rw [emit_trace, reads_append, hr.2]
      simp [reads]
    · rw [hr.2]
      rfl
  refine ⟨ht, hf, ?_, hstate, hlen, hhandled, ?_⟩
  · rw [ht, hf]
    split_ifs <;> omega
  · rw [hstate]
    split_ifs
    · exact hm
    · exact hm

end BtlSm
